import Mathlib

/-!
A shallow embedding of the core of the PWL higher-order-logic reasoner
(`higher_order_logic.h`, `natural_deduction.h`, `set_reasoning.h`) and proofs
about the claims of its specification.

Conventions of the embedding:
* C++ `hol_term` trees become the inductive `hol_term`; pointer sharing is
  irrelevant to the functions modelled here because `operator ==`, `compare`
  and all traversals are structural.
* Machine integers (`unsigned int`, `int`) are modelled as `Nat`/`Int`; none of
  the embedded code paths overflow on the inputs reasoned about.
* Fallible code returns `Option`; an out-of-bounds array read (undefined
  behaviour in the C++) is modelled as `none`.
* Loops whose termination is not structural are given an explicit `fuel`
  parameter; every theorem either quantifies over sufficient fuel or fixes a
  concrete fuel on concrete inputs.
-/

namespace PWL

/-- The variants of `hol_term_type` (values 1..17, in declaration order). -/
inductive hol_term : Type where
  | var (v : Nat)
  | const (c : Nat)
  | param (p : Nat)
  | app1 (l r : hol_term)
  | app2 (f s t : hol_term)
  | and (ops : List hol_term)
  | or (ops : List hol_term)
  | if_then (l r : hol_term)
  | equals (l r : hol_term)
  | iff (ops : List hol_term)
  | not (op : hol_term)
  | for_all (v : Nat) (op : hol_term)
  | exi (v : Nat) (op : hol_term)
  | lam (v : Nat) (op : hol_term)
  | int (i : Int)
  | tru
  | fls

mutual
/-- `operator ==` on `hol_term` (structural equality; pointer sharing in the
    source only short-circuits the same structural test). -/
def beq_term : hol_term → hol_term → Bool
  | .var a, b => match b with | .var b' => a == b' | _ => false
  | .const a, b => match b with | .const b' => a == b' | _ => false
  | .param a, b => match b with | .param b' => a == b' | _ => false
  | .int a, b => match b with | .int b' => a == b' | _ => false
  | .app1 l1 r1, b =>
      match b with
      | .app1 l2 r2 => beq_term l1 l2 && beq_term r1 r2
      | _ => false
  | .app2 a1 b1 c1, b =>
      match b with
      | .app2 a2 b2 c2 => beq_term a1 a2 && beq_term b1 b2 && beq_term c1 c2
      | _ => false
  | .and l1, b => match b with | .and l2 => beq_term_list l1 l2 | _ => false
  | .or l1, b => match b with | .or l2 => beq_term_list l1 l2 | _ => false
  | .iff l1, b => match b with | .iff l2 => beq_term_list l1 l2 | _ => false
  | .if_then l1 r1, b =>
      match b with
      | .if_then l2 r2 => beq_term l1 l2 && beq_term r1 r2
      | _ => false
  | .equals l1 r1, b =>
      match b with
      | .equals l2 r2 => beq_term l1 l2 && beq_term r1 r2
      | _ => false
  | .not a, b => match b with | .not b' => beq_term a b' | _ => false
  | .for_all v1 o1, b =>
      match b with
      | .for_all v2 o2 => v1 == v2 && beq_term o1 o2
      | _ => false
  | .exi v1 o1, b =>
      match b with
      | .exi v2 o2 => v1 == v2 && beq_term o1 o2
      | _ => false
  | .lam v1 o1, b =>
      match b with
      | .lam v2 o2 => v1 == v2 && beq_term o1 o2
      | _ => false
  | .tru, b => match b with | .tru => true | _ => false
  | .fls, b => match b with | .fls => true | _ => false

/-- `operator ==` on `hol_array_term` operand lists. -/
def beq_term_list : List hol_term → List hol_term → Bool
  | [], b => match b with | [] => true | _ => false
  | h1 :: t1, b =>
      match b with
      | h2 :: t2 => beq_term h1 h2 && beq_term_list t1 t2
      | _ => false
end

mutual
theorem beq_term_iff : (a b : hol_term) → (beq_term a b = true ↔ a = b)
  | .var x, b => by cases b <;> simp [beq_term]
  | .const x, b => by cases b <;> simp [beq_term]
  | .param x, b => by cases b <;> simp [beq_term]
  | .int x, b => by cases b <;> simp [beq_term]
  | .app1 l1 r1, b => by
      cases b <;> simp [beq_term]
      rename_i l2 r2
      rw [beq_term_iff l1 l2, beq_term_iff r1 r2]
  | .app2 a1 b1 c1, b => by
      cases b <;> simp [beq_term]
      rename_i a2 b2 c2
      rw [beq_term_iff a1 a2, beq_term_iff b1 b2, beq_term_iff c1 c2]
      simp [and_assoc]
  | .and l1, b => by
      cases b <;> simp [beq_term]
      rename_i l2
      rw [beq_term_list_iff l1 l2]
  | .or l1, b => by
      cases b <;> simp [beq_term]
      rename_i l2
      rw [beq_term_list_iff l1 l2]
  | .iff l1, b => by
      cases b <;> simp [beq_term]
      rename_i l2
      rw [beq_term_list_iff l1 l2]
  | .if_then l1 r1, b => by
      cases b <;> simp [beq_term]
      rename_i l2 r2
      rw [beq_term_iff l1 l2, beq_term_iff r1 r2]
  | .equals l1 r1, b => by
      cases b <;> simp [beq_term]
      rename_i l2 r2
      rw [beq_term_iff l1 l2, beq_term_iff r1 r2]
  | .not x, b => by
      cases b <;> simp [beq_term]
      rename_i y
      rw [beq_term_iff x y]
  | .for_all v1 o1, b => by
      cases b <;> simp [beq_term]
      rename_i v2 o2
      rw [beq_term_iff o1 o2]
      simp
  | .exi v1 o1, b => by
      cases b <;> simp [beq_term]
      rename_i v2 o2
      rw [beq_term_iff o1 o2]
      simp
  | .lam v1 o1, b => by
      cases b <;> simp [beq_term]
      rename_i v2 o2
      rw [beq_term_iff o1 o2]
      simp
  | .tru, b => by cases b <;> simp [beq_term]
  | .fls, b => by cases b <;> simp [beq_term]

theorem beq_term_list_iff : (a b : List hol_term) → (beq_term_list a b = true ↔ a = b)
  | [], b => by cases b <;> simp [beq_term_list]
  | h :: t, b => by
      cases b <;> simp [beq_term_list]
      rename_i h2 t2
      rw [beq_term_iff h h2, beq_term_list_iff t t2]
end

instance : DecidableEq hol_term := fun a b => decidable_of_iff _ (beq_term_iff a b)

namespace hol_term

/-- The numeric value of the `hol_term_type` enum tag
    (`VARIABLE = 1`, ..., `FALSE = 17`). -/
def tag : hol_term → Nat
  | .var _ => 1
  | .const _ => 2
  | .param _ => 3
  | .app1 _ _ => 4
  | .app2 _ _ _ => 5
  | .and _ => 6
  | .or _ => 7
  | .if_then _ _ => 8
  | .equals _ _ => 9
  | .iff _ => 10
  | .not _ => 11
  | .for_all _ _ => 12
  | .exi _ _ => 13
  | .lam _ _ => 14
  | .int _ => 15
  | .tru => 16
  | .fls => 17

end hol_term

/-- Three-way comparison of naturals as in the C++ comparison idiom. -/
def cmpNat (a b : Nat) : Int :=
  if a < b then -1 else if b < a then 1 else 0

/-- Three-way comparison of integers. -/
def cmpInt (a b : Int) : Int :=
  if a < b then -1 else if b < a then 1 else 0

mutual
/-- `compare(const hol_term&, const hol_term&)` of `higher_order_logic.h`.
    NOTE: the source returns `true` (= 1) when `first.type < second.type` and
    `false` (= 0) when `first.type > second.type`; this is embedded verbatim. -/
def compare_term (first second : hol_term) : Int :=
  if first.tag < second.tag then 1
  else if second.tag < first.tag then 0
  else match first with
    | .var a => match second with | .var b => cmpNat a b | _ => 0
    | .const a => match second with | .const b => cmpNat a b | _ => 0
    | .param a => match second with | .param b => cmpNat a b | _ => 0
    | .int a => match second with | .int b => cmpInt a b | _ => 0
    | .not a => match second with | .not b => compare_term a b | _ => 0
    | .if_then l1 r1 =>
        match second with
        | .if_then l2 r2 =>
            let c := compare_term l1 l2
            if c ≠ 0 then c else compare_term r1 r2
        | _ => 0
    | .equals l1 r1 =>
        match second with
        | .equals l2 r2 =>
            let c := compare_term l1 l2
            if c ≠ 0 then c else compare_term r1 r2
        | _ => 0
    | .app1 l1 r1 =>
        match second with
        | .app1 l2 r2 =>
            let c := compare_term l1 l2
            if c ≠ 0 then c else compare_term r1 r2
        | _ => 0
    | .app2 a1 b1 c1 =>
        match second with
        | .app2 a2 b2 c2 =>
            let c := compare_term a1 a2
            if c ≠ 0 then c else
              let c2c := compare_term b1 b2
              if c2c ≠ 0 then c2c else compare_term c1 c2
        | _ => 0
    | .and l1 =>
        match second with
        | .and l2 =>
            if l1.length < l2.length then -1
            else if l2.length < l1.length then 1
            else compare_term_list l1 l2
        | _ => 0
    | .or l1 =>
        match second with
        | .or l2 =>
            if l1.length < l2.length then -1
            else if l2.length < l1.length then 1
            else compare_term_list l1 l2
        | _ => 0
    | .iff l1 =>
        match second with
        | .iff l2 =>
            if l1.length < l2.length then -1
            else if l2.length < l1.length then 1
            else compare_term_list l1 l2
        | _ => 0
    | .for_all v1 o1 =>
        match second with
        | .for_all v2 o2 =>
            if v1 < v2 then -1 else if v2 < v1 then 1 else compare_term o1 o2
        | _ => 0
    | .exi v1 o1 =>
        match second with
        | .exi v2 o2 =>
            if v1 < v2 then -1 else if v2 < v1 then 1 else compare_term o1 o2
        | _ => 0
    | .lam v1 o1 =>
        match second with
        | .lam v2 o2 =>
            if v1 < v2 then -1 else if v2 < v1 then 1 else compare_term o1 o2
        | _ => 0
    | .tru => 0
    | .fls => 0

/-- Element-wise comparison of `hol_array_term` operand lists
    (the length test is done by the caller). -/
def compare_term_list : List hol_term → List hol_term → Int
  | [], _ => 0
  | _ :: _, [] => 0
  | h1 :: r1, h2 :: r2 =>
      let c := compare_term h1 h2
      if c ≠ 0 then c else compare_term_list r1 r2
end

/-- `operator <` on terms: `compare(first, second) < 0`. -/
def term_lt (first second : hol_term) : Bool :=
  compare_term first second < 0

/-- Tag discriminator for `TRUE`. -/
def is_tru : hol_term → Bool | .tru => true | _ => false

/-- Tag discriminator for `FALSE`. -/
def is_fls : hol_term → Bool | .fls => true | _ => false

theorem sizeOf_get_lt (l : List hol_term) (i : Nat) (h : i < l.length) :
    sizeOf (l.get ⟨i, h⟩) < sizeOf l :=
  List.sizeOf_lt_of_mem (l.get_mem i h)

mutual
/-- `is_subset(const hol_term*, const hol_term*)` of `higher_order_logic.h`.
    The branches that call `exit(EXIT_FAILURE)` (conditionals, equality, `IFF`,
    quantifiers, integers) are modelled as `none`; an out-of-bounds array read
    inside the conjunction/disjunction loops is also `none`.  `fuel` bounds the
    recursion depth; `none` on fuel exhaustion. -/
def is_subset (fuel : Nat) (first second : hol_term) : Option Bool :=
  match fuel with
  | 0 => none
  | fuel + 1 =>
    if is_tru first then some (is_tru second)
    else if is_tru second then some true
    else if is_fls first then some true
    else if is_fls second then some (is_fls first)
    else match first with
      | .and ops1 =>
          (match second with
          | .and ops2 => is_conjunction_subset_loop fuel ops1 ops2 0 0
          | s2 => is_conjunction_subset_loop fuel ops1 [s2] 0 0)
      | f1 =>
          match second with
          | .and _ => some false
          | s2 =>
              match f1 with
              | .or ops1 =>
                  (match s2 with
                  | .or ops2 => is_disjunction_subset_loop fuel ops1 ops2 0 0
                  | _ => some false)
              | f1 =>
                  match s2 with
                  | .or ops2 => is_disjunction_subset_loop fuel [f1] ops2 0 0
                  | s2 =>
                      match f1 with
                      | .const c =>
                          some (match s2 with | .const c2 => c == c2 | _ => false)
                      | .var v =>
                          some (match s2 with | .var v2 => v == v2 | _ => false)
                      | .param p =>
                          some (match s2 with | .param p2 => p == p2 | _ => false)
                      | .not a =>
                          (match s2 with
                          | .not b => is_subset fuel b a
                          | _ => some false)
                      | .app1 l r => some (decide (hol_term.app1 l r = s2))
                      | .app2 x y z => some (decide (hol_term.app2 x y z = s2))
                      | _ => none
termination_by structural fuel

/-- The inner `for` loop shared by the merge scan and the trailing loop of
    `is_conjunction_subset`.  The `continue` in the source continues the `for`
    loop (not the enclosing `while`), so after the loop the caller always
    returns `false`; the only other observable effect is a possible
    out-of-bounds read of `second[j]` once `j` has been incremented past the
    end, which is modelled as `none`. -/
def is_conjunction_subset_for (fuel : Nat) (first second : List hol_term)
    (k j : Nat) : Option Unit :=
  match fuel with
  | 0 => none
  | fuel + 1 =>
    if hk : k < first.length then
      if hj : j < second.length then
        match is_subset fuel (first.get ⟨k, hk⟩) (second.get ⟨j, hj⟩) with
        | none => none
        | some true => is_conjunction_subset_for fuel first second (k + 1) (j + 1)
        | some false => is_conjunction_subset_for fuel first second (k + 1) j
      else none
    else some ()
termination_by structural fuel

/-- The main merge loop of `is_conjunction_subset` (including the trailing
    `while` over the remainder of `second`). -/
def is_conjunction_subset_loop (fuel : Nat) (first second : List hol_term)
    (i j : Nat) : Option Bool :=
  match fuel with
  | 0 => none
  | fuel + 1 =>
    if hi : i < first.length then
      if hj : j < second.length then
        let f := first.get ⟨i, hi⟩
        let s := second.get ⟨j, hj⟩
        if f = s then is_conjunction_subset_loop fuel first second (i + 1) (j + 1)
        else if term_lt f s then is_conjunction_subset_loop fuel first second (i + 1) j
        else
          match is_conjunction_subset_for fuel first second 0 j with
          | none => none
          | some _ => some false
      else some true
    else
      if j < second.length then
        match is_conjunction_subset_for fuel first second 0 j with
        | none => none
        | some _ => some false
      else some true
termination_by structural fuel

/-- The inner `for` loop of `is_disjunction_subset` (iterating `k` over
    `second` while bumping `i`); same `continue` behaviour as the conjunction
    loop. -/
def is_disjunction_subset_for (fuel : Nat) (first second : List hol_term)
    (k i : Nat) : Option Unit :=
  match fuel with
  | 0 => none
  | fuel + 1 =>
    if hk : k < second.length then
      if hi : i < first.length then
        match is_subset fuel (first.get ⟨i, hi⟩) (second.get ⟨k, hk⟩) with
        | none => none
        | some true => is_disjunction_subset_for fuel first second (k + 1) (i + 1)
        | some false => is_disjunction_subset_for fuel first second (k + 1) i
      else none
    else some ()
termination_by structural fuel

/-- The main merge loop of `is_disjunction_subset` (including the trailing
    `while` over the remainder of `first`). -/
def is_disjunction_subset_loop (fuel : Nat) (first second : List hol_term)
    (i j : Nat) : Option Bool :=
  match fuel with
  | 0 => none
  | fuel + 1 =>
    if hi : i < first.length then
      if hj : j < second.length then
        let f := first.get ⟨i, hi⟩
        let s := second.get ⟨j, hj⟩
        if f = s then is_disjunction_subset_loop fuel first second (i + 1) (j + 1)
        else if term_lt f s then
          match is_disjunction_subset_for fuel first second 0 i with
          | none => none
          | some _ => some false
        else is_disjunction_subset_loop fuel first second i (j + 1)
      else
        match is_disjunction_subset_for fuel first second 0 i with
        | none => none
        | some _ => some false
    else some true
termination_by structural fuel
end

/-! ### HOL types and type inference (`higher_order_logic.h`, lines 1588-2616) -/

/-- `hol_constant_type`. -/
inductive hol_constant_type : Type where
  | boolean
  | individual
deriving DecidableEq, Repr

/-- `hol_type` (`hol_type_kind` with its payloads).  `noneT` is the bottom
    (ill-typed) kind `NONE`; `tvar` is the `VARIABLE` kind. -/
inductive hol_type : Type where
  | constant (c : hol_constant_type)
  | function (l r : hol_type)
  | tvar (v : Nat)
  | any
  | noneT
deriving DecidableEq, Repr

mutual
/-- `unify_constant`.  The state is the type-variable environment
    `type_variables`; the result is the `out` parameter paired with the updated
    environment.  `none` models `return false` and out-of-bounds reads. -/
def unify_constant (fuel : Nat) (first : hol_constant_type) (second : hol_type)
    (tvs : List hol_type) : Option (hol_type × List hol_type) :=
  match fuel with
  | 0 => none
  | fuel + 1 =>
    match second with
    | .any => some (.constant first, tvs)
    | .constant c =>
        if c = first then some (.constant first, tvs) else some (.noneT, tvs)
    | .tvar v =>
        if h : v < tvs.length then
          match unify_constant fuel first (tvs.get ⟨v, h⟩) tvs with
          | none => none
          | some (out, tvs1) =>
              if out ≠ .noneT then some (out, tvs1.set v out)
              else some (.noneT, tvs1)
        else none
    | _ => some (.noneT, tvs)
termination_by structural fuel

/-- `unify_function` applied to `first = Fun(fl, fr)`. -/
def unify_function (fuel : Nat) (fl fr : hol_type) (second : hol_type)
    (tvs : List hol_type) : Option (hol_type × List hol_type) :=
  match fuel with
  | 0 => none
  | fuel + 1 =>
    match second with
    | .any => some (.function fl fr, tvs)
    | .tvar v =>
        if h : v < tvs.length then
          match unify_function fuel fl fr (tvs.get ⟨v, h⟩) tvs with
          | none => none
          | some (out, tvs1) =>
              if out = .noneT then none
              else some (out, tvs1.set v out)
        else none
    | .function sl sr =>
        (match unify fuel fl sl tvs with
        | none => none
        | some (ol, tvs1) =>
            if ol = .noneT then some (.noneT, tvs1)
            else
              match unify fuel fr sr tvs1 with
              | none => none
              | some (orr, tvs2) =>
                  if orr = .noneT then some (.noneT, tvs2)
                  else some (.function ol orr, tvs2))
    | _ => some (.noneT, tvs)
termination_by structural fuel

/-- The variable-chasing `while` loop plus dispatch inside `unify_variable`
    when `second` is itself a type variable. -/
def unify_variable_chase (fuel : Nat) (first var : Nat) (tvs : List hol_type) :
    Option (hol_type × List hol_type) :=
  match fuel with
  | 0 => none
  | fuel + 1 =>
    if first = var then some (.tvar var, tvs)
    else if h : var < tvs.length then
      match tvs.get ⟨var, h⟩ with
      | .tvar v2 => unify_variable_chase fuel first v2 tvs
      | t =>
          match unify_variable fuel first t tvs with
          | none => none
          | some (out, tvs1) =>
              if out = .noneT then some (.noneT, tvs1)
              else some (.tvar var, tvs1.set var out)
    else none
termination_by structural fuel

/-- `unify_variable`. -/
def unify_variable (fuel : Nat) (first : Nat) (second : hol_type)
    (tvs : List hol_type) : Option (hol_type × List hol_type) :=
  match fuel with
  | 0 => none
  | fuel + 1 =>
    match second with
    | .any => some (.tvar first, tvs)
    | .noneT => some (.noneT, tvs)
    | .constant c =>
        if h : first < tvs.length then
          match unify_constant fuel c (tvs.get ⟨first, h⟩) tvs with
          | none => none
          | some (out, tvs1) =>
              if out = .noneT then some (.noneT, tvs1)
              else some (out, tvs1.set first out)
        else none
    | .function sl sr =>
        if h : first < tvs.length then
          match unify_function fuel sl sr (tvs.get ⟨first, h⟩) tvs with
          | none => none
          | some (out, tvs1) =>
              if out = .noneT then some (.noneT, tvs1)
              else some (out, tvs1.set first out)
        else none
    | .tvar v => unify_variable_chase fuel first v tvs
termination_by structural fuel

/-- `unify` on `hol_type`. -/
def unify (fuel : Nat) (first second : hol_type) (tvs : List hol_type) :
    Option (hol_type × List hol_type) :=
  match fuel with
  | 0 => none
  | fuel + 1 =>
    match first with
    | .any => some (second, tvs)
    | .noneT => some (.noneT, tvs)
    | .constant c => unify_constant fuel c second tvs
    | .function l r => unify_function fuel l r second tvs
    | .tvar v => unify_variable fuel v second tvs
termination_by structural fuel
end

/-- `expect_type`: unify the actual type into the expected type (the updated
    expected type is returned); a `NONE` result is a type error. -/
def expect_type (fuel : Nat) (actual expected : hol_type) (tvs : List hol_type) :
    Option (hol_type × List hol_type) :=
  match unify fuel actual expected tvs with
  | none => none
  | some (t, tvs1) => if t = .noneT then none else some (t, tvs1)

/-- The constant types `HOL_BOOLEAN_TYPE` and `HOL_INTEGER_TYPE`. -/
def HOL_BOOLEAN_TYPE : hol_type := .constant .boolean
def HOL_INTEGER_TYPE : hol_type := .constant .individual

/-! #### The delayed occurs check (`flatten_type_variable`) -/

/-- The backwards scan over `visited_variables` in `flatten_type_variable`.
    `rev` is the visited list latest-entry first; `trivial` accumulates
    `is_trivial_alias` (seeded with `Root`).  On a match it returns the
    accumulated flag together with the keys of all visited entries from the
    match position onwards (the variables of the cycle). -/
def scan_visited (v0 : Nat) :
    List (Nat × Bool) → Bool → List Nat → Option (Bool × List Nat)
  | [], _, _ => none
  | (k, b) :: rest, trivial, acc =>
      if k = v0 then some (trivial, v0 :: acc)
      else scan_visited v0 rest (trivial && b) (k :: acc)

mutual
/-- The 4-argument overload of `flatten_type_variable` (the `VARIABLE` case):
    detect cycles via `visited_variables`, collapse trivial-alias cycles to
    `ANY`, fail on cycles through function constructors, otherwise recurse into
    the variable's value and replace the reference by that value. -/
def flatten_type_variable_var (fuel : Nat) (Root : Bool) (v0 : Nat)
    (visited : List (Nat × Bool)) (tvs : List hol_type) :
    Option (hol_type × List hol_type) :=
  match fuel with
  | 0 => none
  | fuel + 1 =>
    match scan_visited v0 visited.reverse Root [] with
    | some (true, keys) =>
        /- a cycle of trivial variable references: all its variables become ANY -/
        let tvs1 := keys.foldl (fun acc k => acc.set k hol_type.any) tvs
        some (.any, tvs1.set v0 .any)
    | some (false, _) => none  /- infinite type error -/
    | none =>
        if h : v0 < tvs.length then
          match flatten_type_variable fuel true (tvs.get ⟨v0, h⟩)
              (visited ++ [(v0, Root)]) tvs with
          | none => none
          | some (t, tvs1) => some (t, tvs1.set v0 t)
        else none
termination_by structural fuel

/-- `flatten_type_variable<Root>` on a type. -/
def flatten_type_variable (fuel : Nat) (Root : Bool) (t : hol_type)
    (visited : List (Nat × Bool)) (tvs : List hol_type) :
    Option (hol_type × List hol_type) :=
  match fuel with
  | 0 => none
  | fuel + 1 =>
    match t with
    | .any => some (t, tvs)
    | .noneT => some (t, tvs)
    | .constant _ => some (t, tvs)
    | .function l r =>
        (match flatten_type_variable fuel false l visited tvs with
        | none => none
        | some (l1, tvs1) =>
            match flatten_type_variable fuel false r visited tvs1 with
            | none => none
            | some (r1, tvs2) => some (.function l1 r1, tvs2))
    | .tvar v => flatten_type_variable_var fuel Root v visited tvs
termination_by structural fuel
end

/-! #### `compute_type` (with `equals_arg_types` as the `ComputedTypes` sink)

The C++ keys `equals_arg_types` by the address of each `EQUALS` subterm; terms
built without sharing visit each subterm exactly once, so the key is modelled
by the path (list of child indices) from the root. -/

/-- The state threaded through `compute_type`: the `equals_arg_types` sink and
    the `constant_types` / `variable_types` / `parameter_types` array maps plus
    the `type_variables` environment. -/
structure tc_state where
  eq_types : List (List Nat × hol_type × hol_type)
  constant_types : List (Nat × hol_type)
  variable_types : List (Nat × hol_type)
  parameter_types : List (Nat × hol_type)
  type_variables : List hol_type
deriving DecidableEq, Repr

/-- The symbol case of `compute_type` (`CONSTANT`/`VARIABLE`/`PARAMETER`):
    look the symbol up in its map; unify the expected type with the previously
    recorded type (failing on `NONE`), or record the expected type for a fresh
    symbol.  Fresh symbols are appended at the end, as in `array_map`. -/
def compute_symbol_type (fuel : Nat) (symbol : Nat) (expected : hol_type) :
    List (Nat × hol_type) → List hol_type →
    Option (hol_type × List (Nat × hol_type) × List hol_type)
  | [], tvs => some (expected, [(symbol, expected)], tvs)
  | (k, v) :: rest, tvs =>
      if k = symbol then
        match unify fuel expected v tvs with
        | none => none
        | some (newT, tvs1) =>
            if newT = .noneT then none
            else some (newT, (k, newT) :: rest, tvs1)
      else
        match compute_symbol_type fuel symbol expected rest tvs with
        | none => none
        | some (res, rest1, tvs1) => some (res, (k, v) :: rest1, tvs1)

mutual
/-- `compute_type` over a term.  `path` is the child-index path of `t` from
    the root (the model of the subterm's address); `expected` is the
    by-reference `expected_type` argument, whose updated value is returned.
    Like the C++, the `equals_arg_types` sink and the three symbol maps and
    the type-variable environment are separate (by-reference) arguments,
    returned as a tuple. -/
def compute_type (fuel : Nat) (polyEq : Bool) (t : hol_term) (path : List Nat)
    (expected : hol_type) (eqs : List (List Nat × hol_type × hol_type))
    (cts vts pts : List (Nat × hol_type)) (tvs : List hol_type) :
    Option (hol_type × List (List Nat × hol_type × hol_type) ×
      List (Nat × hol_type) × List (Nat × hol_type) × List (Nat × hol_type) ×
      List hol_type) :=
  match fuel with
  | 0 => none
  | fuel + 1 =>
    match t with
    | .const c =>
        (match compute_symbol_type fuel c expected cts tvs with
        | none => none
        | some (e1, m1, tvs1) => some (e1, eqs, m1, vts, pts, tvs1))
    | .var v =>
        (match compute_symbol_type fuel v expected vts tvs with
        | none => none
        | some (e1, m1, tvs1) => some (e1, eqs, cts, m1, pts, tvs1))
    | .param p =>
        (match compute_symbol_type fuel p expected pts tvs with
        | none => none
        | some (e1, m1, tvs1) => some (e1, eqs, cts, vts, m1, tvs1))
    | .int _ =>
        (match expect_type fuel HOL_INTEGER_TYPE expected tvs with
        | none => none
        | some (e1, tvs1) => some (e1, eqs, cts, vts, pts, tvs1))
    | .tru =>
        (match expect_type fuel HOL_BOOLEAN_TYPE expected tvs with
        | none => none
        | some (e1, tvs1) => some (e1, eqs, cts, vts, pts, tvs1))
    | .fls =>
        (match expect_type fuel HOL_BOOLEAN_TYPE expected tvs with
        | none => none
        | some (e1, tvs1) => some (e1, eqs, cts, vts, pts, tvs1))
    | .not op =>
        (match expect_type fuel HOL_BOOLEAN_TYPE expected tvs with
        | none => none
        | some (e1, tvs1) =>
            compute_type fuel polyEq op (path ++ [0]) e1 eqs cts vts pts tvs1)
    | .if_then l r =>
        (match expect_type fuel HOL_BOOLEAN_TYPE expected tvs with
        | none => none
        | some (e1, tvs1) =>
            match compute_type fuel polyEq l (path ++ [0]) e1 eqs cts vts pts tvs1 with
            | none => none
            | some (e2, eqs2, cts2, vts2, pts2, tvs2) =>
                compute_type fuel polyEq r (path ++ [1]) e2 eqs2 cts2 vts2 pts2 tvs2)
    | .and ops =>
        (match expect_type fuel HOL_BOOLEAN_TYPE expected tvs with
        | none => none
        | some (e1, tvs1) =>
            match compute_type_ops fuel polyEq ops path 0 e1 eqs cts vts pts tvs1 with
            | none => none
            | some (_, eqs2, cts2, vts2, pts2, tvs2) =>
                some (HOL_BOOLEAN_TYPE, eqs2, cts2, vts2, pts2, tvs2))
    | .or ops =>
        (match expect_type fuel HOL_BOOLEAN_TYPE expected tvs with
        | none => none
        | some (e1, tvs1) =>
            match compute_type_ops fuel polyEq ops path 0 e1 eqs cts vts pts tvs1 with
            | none => none
            | some (_, eqs2, cts2, vts2, pts2, tvs2) =>
                some (HOL_BOOLEAN_TYPE, eqs2, cts2, vts2, pts2, tvs2))
    | .iff ops =>
        (match expect_type fuel HOL_BOOLEAN_TYPE expected tvs with
        | none => none
        | some (e1, tvs1) =>
            match compute_type_ops fuel polyEq ops path 0 e1 eqs cts vts pts tvs1 with
            | none => none
            | some (_, eqs2, cts2, vts2, pts2, tvs2) =>
                some (HOL_BOOLEAN_TYPE, eqs2, cts2, vts2, pts2, tvs2))
    | .equals l r =>
        /- `compute_equals_type`: records the pair of argument types for this
           `EQUALS` term under its path. -/
        (match expect_type fuel HOL_BOOLEAN_TYPE expected tvs with
        | none => none
        | some (e1, tvs1) =>
            let tv1 := tvs1.length
            match compute_type fuel polyEq l (path ++ [0]) (.tvar tv1)
                eqs cts vts pts (tvs1 ++ [hol_type.any]) with
            | none => none
            | some (ft, eqs2, cts2, vts2, pts2, tvs2) =>
                let tv2 := if polyEq then tvs2.length else tv1
                let tvs3 := if polyEq then tvs2 ++ [hol_type.any] else tvs2
                match compute_type fuel polyEq r (path ++ [1]) (.tvar tv2)
                    eqs2 cts2 vts2 pts2 tvs3 with
                | none => none
                | some (sndt, eqs4, cts4, vts4, pts4, tvs4) =>
                    some (e1, eqs4 ++ [(path, ft, sndt)], cts4, vts4, pts4, tvs4))
    | .for_all v op =>
        (match expect_type fuel HOL_BOOLEAN_TYPE expected tvs with
        | none => none
        | some (e1, tvs1) =>
            let ntv := tvs1.length
            match compute_type fuel polyEq op (path ++ [0]) e1 eqs cts
                (vts ++ [(v, .tvar ntv)]) pts (tvs1 ++ [hol_type.any]) with
            | none => none
            | some (e2, eqs2, cts2, vts2, pts2, tvs2) =>
                /- `variable_types.size--` drops the most recently added entry -/
                some (e2, eqs2, cts2, vts2.dropLast, pts2, tvs2))
    | .exi v op =>
        (match expect_type fuel HOL_BOOLEAN_TYPE expected tvs with
        | none => none
        | some (e1, tvs1) =>
            let ntv := tvs1.length
            match compute_type fuel polyEq op (path ++ [0]) e1 eqs cts
                (vts ++ [(v, .tvar ntv)]) pts (tvs1 ++ [hol_type.any]) with
            | none => none
            | some (e2, eqs2, cts2, vts2, pts2, tvs2) =>
                some (e2, eqs2, cts2, vts2.dropLast, pts2, tvs2))
    | .lam v op =>
        /- `compute_lambda_type` -/
        (match get_function_child_types fuel expected tvs with
        | none => none
        | some (lt, rt, tvs1) =>
            if lt = .noneT then none
            else
              match compute_type fuel polyEq op (path ++ [0]) rt eqs cts
                  (vts ++ [(v, lt)]) pts tvs1 with
              | none => none
              | some (rt1, eqs2, cts2, vts2, pts2, tvs2) =>
                  match vts2.getLast? with
                  | none => none
                  | some (_, lt1) =>
                      some (.function lt1 rt1, eqs2, cts2, vts2.dropLast, pts2, tvs2))
    | .app1 f a =>
        /- `compute_apply_type` (unary) -/
        let nv := tvs.length
        (match compute_type fuel polyEq f (path ++ [0])
            (.function (.tvar nv) expected) eqs cts vts pts (tvs ++ [hol_type.any]) with
        | none => none
        | some (ft, eqs1, cts1, vts1, pts1, tvs1) =>
            match ft with
            | .function argT resT =>
                (match compute_type fuel polyEq a (path ++ [1]) argT
                    eqs1 cts1 vts1 pts1 tvs1 with
                | none => none
                | some (_, eqs2, cts2, vts2, pts2, tvs2) =>
                    some (resT, eqs2, cts2, vts2, pts2, tvs2))
            | _ => none)
    | .app2 f a b =>
        /- `compute_apply_type` (binary) -/
        let n := tvs.length
        (match compute_type fuel polyEq f (path ++ [0])
            (.function (.tvar (n + 1)) (.function (.tvar n) expected))
            eqs cts vts pts (tvs ++ [hol_type.any, hol_type.any]) with
        | none => none
        | some (ft, eqs1, cts1, vts1, pts1, tvs1) =>
            match ft with
            | .function arg1T (.function arg2T resT) =>
                (match compute_type fuel polyEq a (path ++ [1]) arg1T
                    eqs1 cts1 vts1 pts1 tvs1 with
                | none => none
                | some (_, eqs2, cts2, vts2, pts2, tvs2) =>
                    match compute_type fuel polyEq b (path ++ [2]) arg2T
                        eqs2 cts2 vts2 pts2 tvs2 with
                    | none => none
                    | some (_, eqs3, cts3, vts3, pts3, tvs3) =>
                        some (resT, eqs3, cts3, vts3, pts3, tvs3))
            | _ => none)
termination_by structural fuel

/-- The operand loop of `compute_type` over `AND`/`OR`/`IFF` operand lists,
    threading the evolving `expected_type`. -/
def compute_type_ops (fuel : Nat) (polyEq : Bool) (ops : List hol_term)
    (path : List Nat) (i : Nat) (expected : hol_type)
    (eqs : List (List Nat × hol_type × hol_type))
    (cts vts pts : List (Nat × hol_type)) (tvs : List hol_type) :
    Option (hol_type × List (List Nat × hol_type × hol_type) ×
      List (Nat × hol_type) × List (Nat × hol_type) × List (Nat × hol_type) ×
      List hol_type) :=
  match fuel with
  | 0 => none
  | fuel + 1 =>
    match ops with
    | [] => some (expected, eqs, cts, vts, pts, tvs)
    | op :: rest =>
        match compute_type fuel polyEq op (path ++ [i]) expected eqs cts vts pts tvs with
        | none => none
        | some (e1, eqs1, cts1, vts1, pts1, tvs1) =>
            compute_type_ops fuel polyEq rest path (i + 1) e1 eqs1 cts1 vts1 pts1 tvs1
termination_by structural fuel

/-- `get_function_child_types` (both overloads, dispatching on the type and on
    the type-variable environment). -/
def get_function_child_types (fuel : Nat) (t : hol_type) (tvs : List hol_type) :
    Option (hol_type × hol_type × List hol_type) :=
  match fuel with
  | 0 => none
  | fuel + 1 =>
    match t with
    | .any => none  /- `type` is not supposed to be ANY -/
    | .function l r => some (l, r, tvs)
    | .tvar v => get_function_child_types_var fuel v tvs
    | _ => some (.noneT, .any, tvs)

/-- The `unsigned int` overload of `get_function_child_types`. -/
def get_function_child_types_var (fuel : Nat) (v : Nat) (tvs : List hol_type) :
    Option (hol_type × hol_type × List hol_type) :=
  match fuel with
  | 0 => none
  | fuel + 1 =>
    if h : v < tvs.length then
      match tvs.get ⟨v, h⟩ with
      | .any =>
          let n := tvs.length
          let l := hol_type.tvar n
          let r := hol_type.tvar (n + 1)
          some (l, r, (tvs ++ [hol_type.any, hol_type.any]).set v (.function l r))
      | .function l r => some (l, r, tvs)
      | .tvar v2 =>
          (match get_function_child_types_var fuel v2 tvs with
          | none => none
          | some (l, r, tvs1) => some (l, r, tvs1.set v (.function l r)))
      | _ => some (.noneT, .any, tvs)
    else none
termination_by structural fuel
end

/-- Flattening pass over the recorded `equals_arg_types` entries. -/
def flatten_eq_types (fuel : Nat) :
    List (List Nat × hol_type × hol_type) → List hol_type →
    Option (List (List Nat × hol_type × hol_type) × List hol_type)
  | [], tvs => some ([], tvs)
  | (p, a, b) :: rest, tvs =>
      match flatten_type_variable fuel true a [] tvs with
      | none => none
      | some (a1, tvs1) =>
          match flatten_type_variable fuel true b [] tvs1 with
          | none => none
          | some (b1, tvs2) =>
              match flatten_eq_types fuel rest tvs2 with
              | none => none
              | some (rest1, tvs3) => some ((p, a1, b1) :: rest1, tvs3)

/-- Flattening pass over a symbol-type array map. -/
def flatten_symbol_types (fuel : Nat) :
    List (Nat × hol_type) → List hol_type →
    Option (List (Nat × hol_type) × List hol_type)
  | [], tvs => some ([], tvs)
  | (k, v) :: rest, tvs =>
      match flatten_type_variable fuel true v [] tvs with
      | none => none
      | some (v1, tvs1) =>
          match flatten_symbol_types fuel rest tvs1 with
          | none => none
          | some (rest1, tvs2) => some ((k, v1) :: rest1, tvs2)

/-- The outer `compute_type` wrapper (lines 2476-2523): seed the environment
    with one `ANY` type variable, infer, then run the final flatten pass over
    every recorded type. -/
def compute_type_top (fuel : Nat) (polyEq : Bool) (t : hol_term) :
    Option tc_state :=
  match compute_type fuel polyEq t [] (.tvar 0) [] [] [] [] [hol_type.any] with
  | none => none
  | some (_, eqs1, cts1, vts1, pts1, tvs1) =>
      match flatten_eq_types fuel eqs1 tvs1 with
      | none => none
      | some (eq1, tvsA) =>
          match flatten_symbol_types fuel cts1 tvsA with
          | none => none
          | some (c1, tvsB) =>
              match flatten_symbol_types fuel vts1 tvsB with
              | none => none
              | some (v1, tvsC) =>
                  match flatten_symbol_types fuel pts1 tvsC with
                  | none => none
                  | some (p1, tvsD) => some ⟨eq1, c1, v1, p1, tvsD⟩

/-! ### The scope algebra used by canonicalization
(`higher_order_logic.h`, lines 2824-4187)

A `hol_scope` carries its `type` tag, the cached sorted free-variable list
`variables`, and the variant payload.  The tag is encoded in the constructor:
`scomm op` covers `AND`/`OR`/`IFF` (op = the `hol_term_type` value, 6/7/10),
`squant q` covers `FOR_ALL`/`EXISTS`/`LAMBDA` (12/13/14) and `sbin op` covers
`UNARY_APPLICATION`/`EQUALS` (4/9). -/

inductive hol_scope : Type where
  | svar (vars : List Nat) (v : Nat)
  | sconst (vars : List Nat) (c : Nat)
  | sparam (vars : List Nat) (p : Nat)
  | sint (vars : List Nat) (i : Int)
  | scomm (op : Nat) (vars : List Nat) (children negated : List hol_scope)
  | snoncomm (vars : List Nat) (left left_negated right right_negated : List hol_scope)
  | squant (q : Nat) (vars : List Nat) (v : Nat) (operand : hol_scope)
  | snot (vars : List Nat) (operand : hol_scope)
  | sbin (op : Nat) (vars : List Nat) (o1 o2 : hol_scope)
  | ster (vars : List Nat) (o1 o2 o3 : hol_scope)
  | stru (vars : List Nat)
  | sfls (vars : List Nat)

namespace hol_scope

/-- The `hol_term_type` value of a scope's `type` field. -/
def tag : hol_scope → Nat
  | .svar _ _ => 1
  | .sconst _ _ => 2
  | .sparam _ _ => 3
  | .sbin op _ _ _ => op
  | .ster _ _ _ _ => 5
  | .scomm op _ _ _ => op
  | .snoncomm _ _ _ _ _ => 8
  | .squant q _ _ _ => q
  | .snot _ _ => 11
  | .sint _ _ => 15
  | .stru _ => 16
  | .sfls _ => 17

/-- The cached `variables` array of a scope. -/
def svars : hol_scope → List Nat
  | .svar vs _ => vs
  | .sconst vs _ => vs
  | .sparam vs _ => vs
  | .sint vs _ => vs
  | .scomm _ vs _ _ => vs
  | .snoncomm vs _ _ _ _ => vs
  | .squant _ vs _ _ => vs
  | .snot vs _ => vs
  | .sbin _ vs _ _ => vs
  | .ster vs _ _ _ => vs
  | .stru vs => vs
  | .sfls vs => vs

end hol_scope

/-- `is_fls` on scopes (`scope.type == hol_term_type::FALSE`). -/
def scope_is_fls : hol_scope → Bool
  | .sfls _ => true
  | _ => false

/-- `is_tru` on scopes. -/
def scope_is_tru : hol_scope → Bool
  | .stru _ => true
  | _ => false

/-- `set_union` on sorted variable lists, structurally recursive on a fuel
    bounded by the total length (the wrapper below always supplies enough). -/
def set_union_fueled : Nat → List Nat → List Nat → List Nat
  | 0, _, b => b
  | _ + 1, [], b => b
  | _ + 1, a :: as_, [] => a :: as_
  | fuel + 1, a :: as_, b :: bs =>
      if a < b then a :: set_union_fueled fuel as_ (b :: bs)
      else if b < a then b :: set_union_fueled fuel (a :: as_) bs
      else a :: set_union_fueled fuel as_ bs

/-- `set_union` on sorted variable lists (`move_variables` computes the sorted
    union of a child's variable list into the scope's variable list). -/
def set_union_nat (a b : List Nat) : List Nat :=
  set_union_fueled (a.length + b.length) a b

/-- `move_variables(term_variables, scope_variables)`. -/
def move_variables (term_variables scope_variables : List Nat) : List Nat :=
  set_union_nat term_variables scope_variables

/-- `recompute_variables` over a commutative scope's operand lists. -/
def recompute_variables (children negated : List hol_scope) : List Nat :=
  (children ++ negated).foldl (fun acc c => move_variables c.svars acc) []

/-- `recompute_variables` over a conditional scope's four operand lists. -/
def recompute_variables4 (l ln r rn : List hol_scope) : List Nat :=
  (l ++ ln ++ r ++ rn).foldl (fun acc c => move_variables c.svars acc) []

/-- `shift_variables` on a variable list. -/
def shift_var_list (vs : List Nat) (rv : Nat) : List Nat :=
  vs.map fun x => if rv < x then x - 1 else x

mutual
/-- `shift_variables(hol_scope&, unsigned int)`: decrement every variable
    strictly greater than `removed_variable`. -/
def shift_variables : hol_scope → Nat → hol_scope
  | .svar vs v, rv => .svar (shift_var_list vs rv) (if rv < v then v - 1 else v)
  | .sconst vs c, rv => .sconst (shift_var_list vs rv) c
  | .sparam vs p, rv => .sparam (shift_var_list vs rv) p
  | .sint vs i, rv => .sint (shift_var_list vs rv) i
  | .scomm op vs ch neg, rv =>
      .scomm op (shift_var_list vs rv)
        (shift_variables_list ch rv) (shift_variables_list neg rv)
  | .snoncomm vs l ln r rn, rv =>
      .snoncomm (shift_var_list vs rv)
        (shift_variables_list l rv) (shift_variables_list ln rv)
        (shift_variables_list r rv) (shift_variables_list rn rv)
  | .squant q vs v op, rv =>
      .squant q (shift_var_list vs rv)
        (if rv < v then v - 1 else v) (shift_variables op rv)
  | .snot vs op, rv => .snot (shift_var_list vs rv) (shift_variables op rv)
  | .sbin o vs a b, rv =>
      .sbin o (shift_var_list vs rv) (shift_variables a rv) (shift_variables b rv)
  | .ster vs a b c, rv =>
      .ster (shift_var_list vs rv)
        (shift_variables a rv) (shift_variables b rv) (shift_variables c rv)
  | .stru vs, rv => .stru (shift_var_list vs rv)
  | .sfls vs, rv => .sfls (shift_var_list vs rv)

/-- `shift_variables` over an operand list. -/
def shift_variables_list : List hol_scope → Nat → List hol_scope
  | [], _ => []
  | c :: rest, rv => shift_variables c rv :: shift_variables_list rest rv
end

mutual
/-- `operator ==` on `hol_scope` (ignores the cached `variables`). -/
def scope_eq : hol_scope → hol_scope → Bool
  | .svar _ a, s => match s with | .svar _ b => a == b | _ => false
  | .sconst _ a, s => match s with | .sconst _ b => a == b | _ => false
  | .sparam _ a, s => match s with | .sparam _ b => a == b | _ => false
  | .sint _ a, s => match s with | .sint _ b => a == b | _ => false
  | .scomm op1 _ ch1 neg1, s =>
      (match s with
      | .scomm op2 _ ch2 neg2 =>
          op1 == op2 && ch1.length == ch2.length && neg1.length == neg2.length &&
          scope_eq_list ch1 ch2 && scope_eq_list neg1 neg2
      | _ => false)
  | .snoncomm _ l1 ln1 r1 rn1, s =>
      (match s with
      | .snoncomm _ l2 ln2 r2 rn2 =>
          l1.length == l2.length && ln1.length == ln2.length &&
          r1.length == r2.length && rn1.length == rn2.length &&
          scope_eq_list l1 l2 && scope_eq_list ln1 ln2 &&
          scope_eq_list r1 r2 && scope_eq_list rn1 rn2
      | _ => false)
  | .squant q1 _ v1 o1, s =>
      (match s with
      | .squant q2 _ v2 o2 => q1 == q2 && v1 == v2 && scope_eq o1 o2
      | _ => false)
  | .snot _ o1, s => match s with | .snot _ o2 => scope_eq o1 o2 | _ => false
  | .sbin b1 _ x1 y1, s =>
      (match s with
      | .sbin b2 _ x2 y2 => b1 == b2 && scope_eq x1 x2 && scope_eq y1 y2
      | _ => false)
  | .ster _ x1 y1 z1, s =>
      (match s with
      | .ster _ x2 y2 z2 => scope_eq x1 x2 && scope_eq y1 y2 && scope_eq z1 z2
      | _ => false)
  | .stru _, s => match s with | .stru _ => true | _ => false
  | .sfls _, s => match s with | .sfls _ => true | _ => false

/-- Element-wise scope equality (lengths are checked by the caller). -/
def scope_eq_list : List hol_scope → List hol_scope → Bool
  | [], _ => true
  | _ :: _, [] => true
  | a :: as_, b :: bs => scope_eq a b && scope_eq_list as_ bs
end

mutual
/-- `compare(const hol_scope&, const hol_scope&)` — unlike the term compare,
    this one orders distinct type tags correctly. -/
def compare_scope (first second : hol_scope) : Int :=
  if first.tag < second.tag then -1
  else if second.tag < first.tag then 1
  else match first with
    | .svar _ a => match second with | .svar _ b => cmpNat a b | _ => 0
    | .sconst _ a => match second with | .sconst _ b => cmpNat a b | _ => 0
    | .sparam _ a => match second with | .sparam _ b => cmpNat a b | _ => 0
    | .sint _ a => match second with | .sint _ b => cmpInt a b | _ => 0
    | .snot _ o1 => match second with | .snot _ o2 => compare_scope o1 o2 | _ => 0
    | .scomm _ _ ch1 neg1 =>
        (match second with
        | .scomm _ _ ch2 neg2 =>
            if ch1.length < ch2.length then -1
            else if ch2.length < ch1.length then 1
            else if neg1.length < neg2.length then -1
            else if neg2.length < neg1.length then 1
            else
              let c := compare_scope_list ch1 ch2
              if c ≠ 0 then c else compare_scope_list neg1 neg2
        | _ => 0)
    | .snoncomm _ l1 ln1 r1 rn1 =>
        (match second with
        | .snoncomm _ l2 ln2 r2 rn2 =>
            if l1.length < l2.length then -1
            else if l2.length < l1.length then 1
            else if ln1.length < ln2.length then -1
            else if ln2.length < ln1.length then 1
            else if r1.length < r2.length then -1
            else if r2.length < r1.length then 1
            else if rn1.length < rn2.length then -1
            else if rn2.length < rn1.length then 1
            else
              let c := compare_scope_list l1 l2
              if c ≠ 0 then c else
                let c2 := compare_scope_list ln1 ln2
                if c2 ≠ 0 then c2 else
                  let c3 := compare_scope_list r1 r2
                  if c3 ≠ 0 then c3 else compare_scope_list rn1 rn2
        | _ => 0)
    | .squant _ _ v1 o1 =>
        (match second with
        | .squant _ _ v2 o2 =>
            if v1 < v2 then -1 else if v2 < v1 then 1 else compare_scope o1 o2
        | _ => 0)
    | .sbin _ _ x1 y1 =>
        (match second with
        | .sbin _ _ x2 y2 =>
            let c := compare_scope x1 x2
            if c ≠ 0 then c else compare_scope y1 y2
        | _ => 0)
    | .ster _ x1 y1 z1 =>
        (match second with
        | .ster _ x2 y2 z2 =>
            let c := compare_scope x1 x2
            if c ≠ 0 then c else
              let c2 := compare_scope y1 y2
              if c2 ≠ 0 then c2 else compare_scope z1 z2
        | _ => 0)
    | .stru _ => 0
    | .sfls _ => 0

/-- Element-wise scope comparison. -/
def compare_scope_list : List hol_scope → List hol_scope → Int
  | [], _ => 0
  | _ :: _, [] => 0
  | a :: as_, b :: bs =>
      let c := compare_scope a b
      if c ≠ 0 then c else compare_scope_list as_ bs
end

/-! #### Insertion, annihilation and merging of scope operand lists -/

/-- Insert an element at an index (the `shift_right` + write idiom). -/
def insert_at : List hol_scope → Nat → hol_scope → List hol_scope
  | l, 0, x => x :: l
  | [], _ + 1, x => [x]
  | h :: t, n + 1, x => h :: insert_at t n x

/-- Remove the element at an index (the `shift_left` idiom). -/
def erase_at : List hol_scope → Nat → List hol_scope
  | [], _ => []
  | _ :: t, 0 => t
  | h :: t, n + 1 => h :: erase_at t n

/-- `scope_contains`: scan a sorted operand list for `subscope`; returns
    whether it was found together with the index where the scan stopped
    (the sorted insertion position when not found). -/
def scope_contains (subscope : hol_scope) : List hol_scope → Nat → Bool × Nat
  | [], idx => (false, idx)
  | s :: rest, idx =>
      let c := compare_scope subscope s
      if c < 0 then (false, idx)
      else if c = 0 then (true, idx)
      else scope_contains subscope rest (idx + 1)

/-- `add_to_scope_helper<Operator>`: returns the updated `children` and
    `negated` lists and the `found_negation` flag.  (`Operator` is the
    `hol_term_type` value: 6 = AND, 7 = OR, 10 = IFF.) -/
def add_to_scope_helper (op : Nat) (subscope : hol_scope)
    (children negated : List hol_scope) :
    List hol_scope × List hol_scope × Bool :=
  let (foundN, i) := scope_contains subscope negated 0
  if foundN then
    let negated1 := if op = 10 then erase_at negated i else negated
    (children, negated1, true)
  else
    let (foundC, i2) := scope_contains subscope children 0
    if foundC then
      let children1 := if op = 10 then erase_at children i2 else children
      (children1, negated, false)
    else
      (insert_at children i2 subscope, negated, false)

/-- Does this scope carry the negated-`IFF` sentinel (a trailing `FALSE`
    operand)? -/
def has_iff_sentinel : hol_scope → Bool
  | .scomm 10 _ ch _ =>
      (match ch.getLast? with
      | some (.sfls _) => true
      | _ => false)
  | _ => false

/-- `add_to_scope<Operator>` (the overload without a `variables` argument). -/
def add_to_scope (op : Nat) (subscope : hol_scope)
    (children negated : List hol_scope) :
    List hol_scope × List hol_scope × Bool :=
  match subscope with
  | .snot _ inner =>
      let (neg1, ch1, found) := add_to_scope_helper op inner negated children
      (ch1, neg1, found)
  | sub =>
      if has_iff_sentinel sub then
        match sub with
        | .scomm o vs ch neg =>
            let sub1 := hol_scope.scomm o vs ch.dropLast neg
            let (neg1, ch1, found) := add_to_scope_helper op sub1 negated children
            (ch1, neg1, found)
        | _ => add_to_scope_helper op sub children negated
      else add_to_scope_helper op sub children negated

/-- `add_to_scope<Operator>` (the overload that also maintains the enclosing
    scope's `variables` list). -/
def add_to_scope_v (op : Nat) (subscope : hol_scope)
    (children negated : List hol_scope) (variables0 : List Nat) :
    List hol_scope × List hol_scope × List Nat × Bool :=
  let vars1 := if op ≠ 10 then move_variables subscope.svars variables0 else variables0
  let (ch1, neg1, found) := add_to_scope op subscope children negated
  let vars2 := if op = 10 then recompute_variables ch1 neg1 else vars1
  (ch1, neg1, vars2, found)

/-- `intersection_size<Operator>` (fuelled helper).  For `AND`/`OR`/`IF_THEN`
    it returns 1 as soon as a common operand is found and leaves both lists
    unchanged; for `IFF` it removes the matched operands from both lists and
    counts them. -/
def intersection_size_fueled (op : Nat) :
    Nat → List hol_scope → List hol_scope →
    Nat × List hol_scope × List hol_scope
  | 0, first, second => (0, first, second)
  | _ + 1, [], second => (0, [], second)
  | _ + 1, a :: as_, [] => (0, a :: as_, [])
  | fuel + 1, a :: as_, b :: bs =>
      let c := compare_scope a b
      if c = 0 then
        if op = 10 then
          let (cnt, f1, s1) := intersection_size_fueled op fuel as_ bs
          (cnt + 1, f1, s1)
        else (1, a :: as_, b :: bs)
      else if c < 0 then
        let (cnt, f1, s1) := intersection_size_fueled op fuel as_ (b :: bs)
        (cnt, a :: f1, s1)
      else
        let (cnt, f1, s1) := intersection_size_fueled op fuel (a :: as_) bs
        (cnt, f1, b :: s1)

/-- `intersection_size<Operator>(first, second)`. -/
def intersection_size (op : Nat) (first second : List hol_scope) :
    Nat × List hol_scope × List hol_scope :=
  intersection_size_fueled op (first.length + second.length) first second

/-- `intersection_size<Operator>(first, second, skip_second_index)`: the
    element of `second` at `skip_second_index` is exempt from matching. -/
def intersection_size_skip_fueled (op : Nat) :
    Nat → List hol_scope → List hol_scope → Nat →
    Nat × List hol_scope × List hol_scope
  | 0, first, second, _ => (0, first, second)
  | _ + 1, [], second, _ => (0, [], second)
  | _ + 1, a :: as_, [], _ => (0, a :: as_, [])
  | fuel + 1, a :: as_, b :: bs, skip =>
      if skip = 0 then
        let (cnt, f1, s1) := intersection_size_skip_fueled op fuel (a :: as_) bs (bs.length + 1)
        (cnt, f1, b :: s1)
      else
        let c := compare_scope a b
        if c = 0 then
          if op = 10 then
            let (cnt, f1, s1) := intersection_size_skip_fueled op fuel as_ bs (skip - 1)
            (cnt + 1, f1, s1)
          else (1, a :: as_, b :: bs)
        else if c < 0 then
          let (cnt, f1, s1) := intersection_size_skip_fueled op fuel as_ (b :: bs) skip
          (cnt, a :: f1, s1)
        else
          let (cnt, f1, s1) := intersection_size_skip_fueled op fuel (a :: as_) bs (skip - 1)
          (cnt, f1, b :: s1)

/-- `intersection_size<Operator>(first, second, skip_second_index)`. -/
def intersection_size_skip (op : Nat) (first second : List hol_scope)
    (skip : Nat) : Nat × List hol_scope × List hol_scope :=
  intersection_size_skip_fueled op (first.length + second.length) first second skip

/-- `merge_scopes<Operator>(dst, first, second)` (fuelled helper): sorted
    merge; equal operands are deduplicated (`AND`/`OR`) or cancelled in pairs
    (`IFF`). -/
def merge_scopes_fueled (op : Nat) :
    Nat → List hol_scope → List hol_scope → List hol_scope
  | 0, _, second => second
  | _ + 1, [], second => second
  | _ + 1, first, [] => first
  | fuel + 1, a :: as_, b :: bs =>
      let c := compare_scope a b
      if c = 0 then
        if op = 10 then merge_scopes_fueled op fuel as_ bs
        else a :: merge_scopes_fueled op fuel as_ bs
      else if c < 0 then a :: merge_scopes_fueled op fuel as_ (b :: bs)
      else b :: merge_scopes_fueled op fuel (a :: as_) bs

/-- `merge_scopes<Operator>(dst, first, second)`. -/
def merge_scopes_list (op : Nat) (first second : List hol_scope) :
    List hol_scope :=
  merge_scopes_fueled op (first.length + second.length) first second

/-- `merge_scopes<Operator>(dst, first, second, skip_second_index,
    new_second_index)` (fuelled helper): like the plain merge but the element
    of `second` at index `skip_second_index` is dropped from the output and
    `new_second_index` is set to `dst.length - 1` at the moment of skipping
    (natural-number subtraction; the C++ value wraps around when `dst` is
    still empty).  `skip` counts down as `second` is consumed; `emitted` is
    the current output length; `res` is the running `new_second_index`,
    initialised by the caller to `skip_second_index`. -/
def merge_scopes_skip_fueled (op : Nat) :
    Nat → List hol_scope → List hol_scope → Nat → Nat → Nat →
    List hol_scope × Nat
  | 0, _, second, _, _, res => (second, res)
  | fuel + 1, first, second, skip, emitted, res =>
      match first, second with
      | first, [] => (first, res)
      | [], b :: bs =>
          if skip = 0 then (bs, emitted - 1)
          else
            let (s1, res1) :=
              merge_scopes_skip_fueled op fuel [] bs (skip - 1) (emitted + 1) res
            (b :: s1, res1)
      | a :: as_, b :: bs =>
          if skip = 0 then
            /- consume the skipped element; no further skip can occur -/
            merge_scopes_skip_fueled op fuel (a :: as_) bs (bs.length + 1)
              emitted (emitted - 1)
          else
            let c := compare_scope a b
            if c = 0 then
              if op = 10 then
                merge_scopes_skip_fueled op fuel as_ bs (skip - 1) emitted res
              else
                let (s1, res1) :=
                  merge_scopes_skip_fueled op fuel as_ bs (skip - 1) (emitted + 1) res
                (a :: s1, res1)
            else if c < 0 then
              let (s1, res1) :=
                merge_scopes_skip_fueled op fuel as_ (b :: bs) skip (emitted + 1) res
              (a :: s1, res1)
            else
              let (s1, res1) :=
                merge_scopes_skip_fueled op fuel (a :: as_) bs (skip - 1) (emitted + 1) res
              (b :: s1, res1)

/-- `merge_scopes<Operator>(dst, first, second, skip_second_index,
    new_second_index)`. -/
def merge_scopes_skip (op : Nat) (first second : List hol_scope) (skip : Nat) :
    List hol_scope × Nat :=
  merge_scopes_skip_fueled op (first.length + second.length) first second skip 0 skip

/-! #### Negation, hoisting and quantifier helpers -/

/-- `negate_iff` on an `IFF` operand list: toggle the trailing-`FALSE`
    sentinel. -/
def negate_iff_children (ch : List hol_scope) : List hol_scope :=
  match ch.getLast? with
  | some (.sfls _) => ch.dropLast
  | _ => ch ++ [.sfls []]

/-- `negate_iff(hol_scope&)`. -/
def negate_iff : hol_scope → hol_scope
  | .scomm o vs ch neg => .scomm o vs (negate_iff_children ch) neg
  | s => s

/-- `negate_scope(hol_scope&)`. -/
def negate_scope : hol_scope → hol_scope
  | .stru vs => .sfls vs
  | .sfls vs => .stru vs
  | .snot _ op => op
  | .scomm 10 vs ch neg => .scomm 10 vs (negate_iff_children ch) neg
  | s => .snot s.svars s

/-- Remove the `IFF` sentinel for comparison purposes. -/
def drop_iff_sentinel : hol_scope → hol_scope
  | .scomm o vs ch neg => .scomm o vs ch.dropLast neg
  | s => s

/-- `are_negations(hol_scope&, hol_scope&)`. -/
def are_negations (left right : hol_scope) : Bool :=
  if (match left with | .snot _ op => scope_eq op right | _ => false)
   || (match right with | .snot _ op => scope_eq op left | _ => false) then true
  else
    match left, right with
    | .scomm 10 lv lch lneg, .scomm 10 rv rch rneg =>
        if has_iff_sentinel (.scomm 10 lv lch lneg) then
          if has_iff_sentinel (.scomm 10 rv rch rneg) then false
          else scope_eq (drop_iff_sentinel (.scomm 10 lv lch lneg)) (.scomm 10 rv rch rneg)
        else
          if has_iff_sentinel (.scomm 10 rv rch rneg) then
            scope_eq (.scomm 10 lv lch lneg) (drop_iff_sentinel (.scomm 10 rv rch rneg))
          else false
    | _, _ => false

/-- `merge_scopes<Operator>(src, dst, src_negated, dst_negated,
    found_negation)`: annihilation / parity detection by intersection,
    followed by the sorted merges.  Returns the updated `dst`, `dst_negated`
    and the `found_negation` flag. -/
def merge_scopes_main (op : Nat) (src dst src_neg dst_neg : List hol_scope) :
    List hol_scope × List hol_scope × Bool :=
  let (ic1, src1, dst_neg1) := intersection_size op src dst_neg
  if 0 < ic1 && (op == 6 || op == 7) then (dst, dst_neg, true)
  else
    let (ic2, src_neg1, dst1) := intersection_size op src_neg dst
    if 0 < ic1 + ic2 && (op == 6 || op == 7) then (dst, dst_neg, true)
    else
      let found := op == 10 && (ic1 + ic2) % 2 == 1
      if op == 10 && src1.isEmpty && dst1.isEmpty && src_neg1.isEmpty && dst_neg1.isEmpty then
        ([], [], found)
      else
        (merge_scopes_list op src1 dst1, merge_scopes_list op src_neg1 dst_neg1, found)

/-- `merge_scopes<Operator>` with a skipped `dst` index (used when raising a
    nested conditional out of a disjunctive consequent).  Also returns the
    `new_dst_index`. -/
def merge_scopes_main_skip (op : Nat) (src dst src_neg dst_neg : List hol_scope)
    (skip : Nat) : List hol_scope × List hol_scope × Bool × Nat :=
  let (ic1, src1, dst_neg1) := intersection_size op src dst_neg
  if 0 < ic1 && (op == 6 || op == 7) then (dst, dst_neg, true, skip)
  else
    let (ic2, src_neg1, dst1) := intersection_size_skip op src_neg dst skip
    if 0 < ic1 + ic2 && (op == 6 || op == 7) then (dst, dst_neg, true, skip)
    else
      let found := op == 10 && (ic1 + ic2) % 2 == 1
      if op == 10 && src1.isEmpty && dst1.isEmpty && src_neg1.isEmpty && dst_neg1.isEmpty then
        ([], [], found, skip)
      else
        let (dst2, newIdx) := merge_scopes_skip op src1 dst1 skip
        (dst2, merge_scopes_list op src_neg1 dst_neg1, found, newIdx)

/-- `promote_from_quantifier_scope`: move every operand that does not use the
    quantified variable out of the operand list into `dst` (shifting its
    variables); keep the rest in order.  Returns (kept operands, new `dst`). -/
def promote_from_quantifier_scope :
    List hol_scope → List hol_scope → Nat → List hol_scope × List hol_scope
  | [], dst, _ => ([], dst)
  | c :: rest, dst, qv =>
      if c.svars.contains qv then
        let (kept, dst1) := promote_from_quantifier_scope rest dst qv
        (c :: kept, dst1)
      else
        promote_from_quantifier_scope rest (dst ++ [shift_variables c qv]) qv

/-- `make_quantifier_scope<QuantifierType>`: build the quantifier scope with
    the operand's variables minus the quantified variable. -/
def make_quantifier_scope (q : Nat) (operand : hol_scope) (qv : Nat) : hol_scope :=
  .squant q (operand.svars.erase qv) qv operand

/-- `new_variable(src, dst, variable_map)`: fails on a duplicate declaration;
    otherwise appends `src ↦ size + 1`. -/
def new_variable (src : Nat) (vmap : List (Nat × Nat)) :
    Option (Nat × List (Nat × Nat)) :=
  if vmap.any (fun p => p.1 = src) then none
  else some (vmap.length + 1, vmap ++ [(src, vmap.length + 1)])

/-- Look up the recorded `equals_arg_types` entry of the `EQUALS` subterm at
    `path`. -/
def lookup_eq_types (types : List (List Nat × hol_type × hol_type))
    (path : List Nat) : Option (hol_type × hol_type) :=
  match types.find? (fun e => e.1 = path) with
  | some (_, a, b) => some (a, b)
  | none => none

/-! #### `canonicalize_scope` and its mutual family
(`higher_order_logic.h`, lines 4190-5135).  `acd` is the
`AllConstantsDistinct` template flag; `vmap` is the `variable_map`;
`types` the `equals_arg_types` computed by type inference. -/

/-- The loop of `canonicalize_conditional_scope` (lines 4322-4358) that raises
    nested conditionals out of a disjunctive consequent.  Works on the fields
    of the accumulating `IF_THEN` scope; the returned `Bool` is true when the
    whole conditional collapsed to `TRUE`. -/
def raise_conditional_loop (fuel : Nat) (i : Nat)
    (l ln r rn : List hol_scope) :
    Option (Bool × List hol_scope × List hol_scope × List hol_scope × List hol_scope) :=
  match fuel with
  | 0 => none
  | fuel + 1 =>
    if h : i < r.length then
      match r.get ⟨i, h⟩ with
      | .snoncomm _ cl cln cr crn =>
          let (l1, ln1, found) := merge_scopes_main 6 cl l cln ln
          if found then some (true, l, ln, r, rn)
          else
            let (r1, rn1, found2, newIdx) := merge_scopes_main_skip 7 cr r crn rn i
            if found2 then some (true, l1, ln1, r, rn)
            else raise_conditional_loop fuel (newIdx + 1) l1 ln1 r1 rn1
      | _ => raise_conditional_loop fuel (i + 1) l ln r rn
    else some (false, l, ln, r, rn)
termination_by structural fuel

/-- Lines 4314-4391 of `canonicalize_conditional_scope`: convert the
    canonical consequent `out` into the fields
    (variables, left, left_negated, right, right_negated) of an `IF_THEN`
    scope.  The outer `none` is fuel exhaustion; the inner `none` signals a
    collapse of the whole conditional to `TRUE`. -/
def build_conditional_consequent (fuel : Nat) (out : hol_scope) :
    Option (Option (List Nat × List hol_scope × List hol_scope × List hol_scope × List hol_scope)) :=
  match out with
  | .scomm 7 ovars och oneg =>
      (match raise_conditional_loop fuel 0 [] [] och oneg with
      | none => none
      | some (collapsed, l1, ln1, r1, rn1) =>
          if collapsed then some none
          else some (some (ovars, l1, ln1, r1, rn1)))
  | .snot nvars nop => some (some (nvars, [], [], [], [nop]))
  | .scomm 10 ivars ich ineg =>
      if has_iff_sentinel (.scomm 10 ivars ich ineg) then
        some (some (ivars, [], [], [], [hol_scope.scomm 10 ivars ich.dropLast ineg]))
      else some (some (ivars, [], [], [hol_scope.scomm 10 ivars ich ineg], []))
  | .snoncomm nvars nl nln nr nrn => some (some (nvars, nl, nln, nr, nrn))
  | o => some (some (o.svars, [], [], [o], []))

/-- Lines 4393-4414 of `canonicalize_conditional_scope`: merge the canonical
    antecedent `left` into the antecedent fields of the conditional scope.
    `none` signals that a negation was found (the conditional is `TRUE`). -/
def merge_conditional_antecedent (left : hol_scope)
    (l1 ln1 : List hol_scope) (ovars : List Nat) :
    Option (List hol_scope × List hol_scope × List Nat) :=
  match left with
  | .scomm 6 lvars lch lneg =>
      let (l2, ln2, found) := merge_scopes_main 6 lch l1 lneg ln1
      if found then none
      else some (l2, ln2, move_variables lvars ovars)
  | lf =>
      let (l2, ln2, vars2, found) := add_to_scope_v 6 lf l1 ln1 ovars
      if found then none
      else some (l2, ln2, vars2)

/-- The common finalisation of the `IFF` construction paths of
    `canonicalize_equals_scope` (lines 5049-5066). -/
def canonical_iff_tail : hol_scope → hol_scope
  | .scomm op vars ch neg =>
      if ch.isEmpty && neg.isEmpty then .stru []
      else
        (match ch, neg with
        | [x], [] => x
        | [], [x] => negate_scope x
        | _, _ => .scomm op vars ch neg)
  | s => s

/-- The `EQUALS`/`IFF` construction at the end of `canonicalize_equals_scope`
    (lines 5010-5045): boolean operand types yield an `IFF` scope, otherwise
    an ordered `EQUALS` scope. -/
def canonicalize_equals_combine (is_left_boolean is_right_boolean : Bool)
    (left right : hol_scope) (vmap : List (Nat × Nat)) :
    Option (hol_scope × List (Nat × Nat)) :=
  if is_left_boolean && is_right_boolean then
    let (ch1, neg1, vars1, fneg1) := add_to_scope_v 10 left [] [] []
    let (ch2, neg2, vars2, fneg2) := add_to_scope_v 10 right ch1 neg1 vars1
    let ch3 := if xor fneg1 fneg2 then negate_iff_children ch2 else ch2
    some (canonical_iff_tail (.scomm 10 vars2 ch3 neg2), vmap)
  else
    let (l1, r1) :=
      if 0 < compare_scope left right then (right, left) else (left, right)
    some (.sbin 9 (move_variables r1.svars (move_variables l1.svars [])) l1 r1, vmap)

mutual
/-- `process_commutative_quantifier_scope` (lines 4480-4562). -/
def process_commutative_quantifier_scope (fuel : Nat) (q : Nat)
    (operand : hol_scope) (qv : Nat) : Option hol_scope :=
  match fuel with
  | 0 => none
  | fuel + 1 =>
    match operand with
    | .scomm op ovars och oneg =>
        let (kept_ch, out_ch) := promote_from_quantifier_scope och [] qv
        let (kept_neg, out_neg) := promote_from_quantifier_scope oneg [] qv
        if kept_ch.isEmpty && kept_neg.isEmpty then
          /- we have moved all operands out of the quantifier -/
          some (.scomm op (move_variables ovars []) out_ch out_neg)
        else
          let qop :=
            match kept_ch, kept_neg with
            | [x], [] => x
            | [], [x] => negate_scope x
            | _, _ => .scomm op (recompute_variables kept_ch kept_neg) kept_ch kept_neg
          match
            (if qop.tag ≠ op && (qop.tag == 6 || qop.tag == 7) then
              process_commutative_quantifier_scope fuel q qop qv
            else if qop.tag = 8 then
              process_conditional_quantifier_scope fuel q qop qv
            else some (make_quantifier_scope q qop qv)) with
          | none => none
          | some quantifier =>
              if out_ch.isEmpty && out_neg.isEmpty then some quantifier
              else
                if op = 6 then
                  let (ch1, neg1, found) := add_to_scope 6 quantifier out_ch out_neg
                  if found then some (.sfls [])
                  else some (.scomm 6 (recompute_variables ch1 neg1) ch1 neg1)
                else
                  let (ch1, neg1, found) := add_to_scope 7 quantifier out_ch out_neg
                  if found then some (.stru [])
                  else some (.scomm 7 (recompute_variables ch1 neg1) ch1 neg1)
    | _ => none
termination_by structural fuel

/-- `process_conditional_quantifier_scope` (lines 4565-4762). -/
def process_conditional_quantifier_scope (fuel : Nat) (q : Nat)
    (operand : hol_scope) (qv : Nat) : Option hol_scope :=
  match fuel with
  | 0 => none
  | fuel + 1 =>
    match operand with
    | .snoncomm _ ol oln orr orn =>
        let (kept_l, out_l) := promote_from_quantifier_scope ol [] qv
        let (kept_ln, out_ln) := promote_from_quantifier_scope oln [] qv
        let (kept_r, out_r) := promote_from_quantifier_scope orr [] qv
        let (kept_rn, out_rn) := promote_from_quantifier_scope orn [] qv
        if kept_l.isEmpty && kept_ln.isEmpty then
          if kept_r.isEmpty && kept_rn.isEmpty then
            /- everything was promoted out of the quantifier -/
            some (.snoncomm [] out_l out_ln out_r out_rn)
          else
            let qop :=
              match kept_r, kept_rn with
              | [x], [] => x
              | [], [x] => negate_scope x
              | _, _ => .scomm 7 (recompute_variables kept_r kept_rn) kept_r kept_rn
            match
              (if qop.tag == 6 || qop.tag == 7 then
                process_commutative_quantifier_scope fuel q qop qv
              else some (make_quantifier_scope q qop qv)) with
            | none => none
            | some quantifier =>
                let (r1, rn1, found) := add_to_scope 7 quantifier out_r out_rn
                if found then some (.stru [])
                else
                  some (.snoncomm (recompute_variables4 out_l out_ln r1 rn1)
                    out_l out_ln r1 rn1)
        else
          /- the part of the antecedent inside the quantifier is non-empty -/
          match
            (if kept_r.isEmpty && kept_rn.isEmpty then
              let qop :=
                match kept_l, kept_ln with
                | [x], [] => negate_scope x
                | [], [x] => x
                | _, _ =>
                    let conjunction : hol_scope :=
                      .scomm 6 (recompute_variables kept_l kept_ln) kept_l kept_ln
                    .snot (move_variables conjunction.svars []) conjunction
              match
                (if qop.tag == 6 || qop.tag == 7 then
                  process_commutative_quantifier_scope fuel q qop qv
                else if qop.tag = 8 then
                  process_conditional_quantifier_scope fuel q qop qv
                else some (make_quantifier_scope q qop qv)) with
              | none => none
              | some quantifier =>
                  let (r1, rn1, found) := add_to_scope 7 quantifier out_r out_rn
                  if found then some none
                  else some (some (r1, rn1))
            else
              let operand1 : hol_scope :=
                .snoncomm (recompute_variables4 kept_l kept_ln kept_r kept_rn)
                  kept_l kept_ln kept_r kept_rn
              let quantifier := make_quantifier_scope q operand1 qv
              let (r1, rn1, found) := add_to_scope 7 quantifier out_r out_rn
              if found then some none
              else some (some (r1, rn1))) with
          | none => none
          | some none => some (.stru [])
          | some (some (r1, rn1)) =>
              if out_l.isEmpty && out_ln.isEmpty then
                /- the antecedent of the new conditional is empty:
                   degenerate into a disjunction -/
                match r1, rn1 with
                | [x], [] => some x
                | [], [x] => some (negate_scope x)
                | _, _ => some (.scomm 7 (recompute_variables r1 rn1) r1 rn1)
              else
                some (.snoncomm (recompute_variables4 out_l out_ln r1 rn1)
                  out_l out_ln r1 rn1)
    | _ => none
termination_by structural fuel
end

mutual
/-- The operand loop plus finalisation of `canonicalize_commutative_scope`
    (lines 4190-4278; `op` = 6 AND, 7 OR, 10 IFF).  `ch`/`neg`/`vars` are the
    fields of the accumulating `out` scope. -/
def canonicalize_commutative_ops (fuel : Nat) (acd : Bool) (op : Nat)
    (ops : List hol_term) (path : List Nat) (i : Nat)
    (ch neg : List hol_scope) (vars : List Nat) (vmap : List (Nat × Nat))
    (types : List (List Nat × hol_type × hol_type)) :
    Option (hol_scope × List (Nat × Nat)) :=
  match fuel with
  | 0 => none
  | fuel + 1 =>
    match ops with
    | [] =>
        /- lines 4260-4277: empty and singleton collapses -/
        if ch.isEmpty && neg.isEmpty then
          if op == 6 || op == 10 then some (.stru [], vmap)
          else some (.sfls [], vmap)
        else
          match ch, neg with
          | [x], [] => some (x, vmap)
          | [], [x] => some (negate_scope x, vmap)
          | _, _ => some (.scomm op vars ch neg, vmap)
    | t :: rest =>
        match canonicalize_scope fuel acd t (path ++ [i]) vmap types with
        | none => none
        | some (next, vmap1) =>
            match next with
            | .sfls _ =>
                if op = 6 then some (.sfls [], vmap1)
                else if op = 10 then
                  canonicalize_commutative_ops fuel acd op rest path (i + 1)
                    (negate_iff_children ch) neg vars vmap1 types
                else
                  canonicalize_commutative_ops fuel acd op rest path (i + 1)
                    ch neg vars vmap1 types
            | .stru _ =>
                if op = 7 then some (.stru [], vmap1)
                else
                  canonicalize_commutative_ops fuel acd op rest path (i + 1)
                    ch neg vars vmap1 types
            | .scomm op2 nvars nch nneg =>
                  if op2 = op then
                    let (ch1, neg1, found) := merge_scopes_main op nch ch nneg neg
                    let vars1 :=
                      if op = 10 then recompute_variables ch1 neg1
                      else move_variables nvars vars
                    if found then
                      if op = 6 then some (.sfls [], vmap1)
                      else if op = 7 then some (.stru [], vmap1)
                      else
                        canonicalize_commutative_ops fuel acd op rest path (i + 1)
                          (negate_iff_children ch1) neg1 vars1 vmap1 types
                    else
                      canonicalize_commutative_ops fuel acd op rest path (i + 1)
                        ch1 neg1 vars1 vmap1 types
                  else
                    let (ch1, neg1, vars1, found) :=
                      add_to_scope_v op (.scomm op2 nvars nch nneg) ch neg vars
                    if found then
                      if op = 6 then some (.sfls [], vmap1)
                      else if op = 7 then some (.stru [], vmap1)
                      else
                        canonicalize_commutative_ops fuel acd op rest path (i + 1)
                          (negate_iff_children ch1) neg1 vars1 vmap1 types
                    else
                      canonicalize_commutative_ops fuel acd op rest path (i + 1)
                        ch1 neg1 vars1 vmap1 types
              | n =>
                  let (ch1, neg1, vars1, found) := add_to_scope_v op n ch neg vars
                  if found then
                    if op = 6 then some (.sfls [], vmap1)
                    else if op = 7 then some (.stru [], vmap1)
                    else
                      canonicalize_commutative_ops fuel acd op rest path (i + 1)
                        (negate_iff_children ch1) neg1 vars1 vmap1 types
                  else
                    canonicalize_commutative_ops fuel acd op rest path (i + 1)
                      ch1 neg1 vars1 vmap1 types
termination_by structural fuel

/-- `canonicalize_conditional_scope` (lines 4281-4425). -/
def canonicalize_conditional_scope (fuel : Nat) (acd : Bool)
    (lhs rhs : hol_term) (path : List Nat) (vmap : List (Nat × Nat))
    (types : List (List Nat × hol_type × hol_type)) :
    Option (hol_scope × List (Nat × Nat)) :=
  match fuel with
  | 0 => none
  | fuel + 1 =>
    match canonicalize_scope fuel acd lhs (path ++ [0]) vmap types with
    | none => none
    | some (left, vmap1) =>
        if scope_is_fls left then some (.stru [], vmap1)
        else if scope_is_tru left then
          canonicalize_scope fuel acd rhs (path ++ [1]) vmap1 types
        else
          match canonicalize_scope fuel acd rhs (path ++ [1]) vmap1 types with
          | none => none
          | some (out, vmap2) =>
              if scope_eq out left then some (.stru [], vmap2)
              else if scope_is_fls out then some (negate_scope left, vmap2)
              else if scope_is_tru out then some (out, vmap2)
              else if are_negations out left then some (out, vmap2)
              else
                match build_conditional_consequent fuel out with
                | none => none
                | some none => some (.stru [], vmap2)
                | some (some (ovars, l1, ln1, r1, rn1)) =>
                    match merge_conditional_antecedent left l1 ln1 ovars with
                    | none => some (.stru [], vmap2)
                    | some (l2, ln2, vars2) =>
                        /- common operands between antecedent and consequent -/
                        let (ic1, _, _) := intersection_size 8 l2 r1
                        let (ic2, _, _) := intersection_size 8 ln2 rn1
                        if 0 < ic1 || 0 < ic2 then some (.stru [], vmap2)
                        else some (.snoncomm vars2 l2 ln2 r1 rn1, vmap2)
termination_by structural fuel

/-- `canonicalize_quantifier_scope` (lines 4764-4802); `q` is 12/13/14 for
    `FOR_ALL`/`EXISTS`/`LAMBDA`. -/
def canonicalize_quantifier_scope (fuel : Nat) (acd : Bool) (q : Nat)
    (srcVar : Nat) (body : hol_term) (path : List Nat)
    (vmap : List (Nat × Nat)) (types : List (List Nat × hol_type × hol_type)) :
    Option (hol_scope × List (Nat × Nat)) :=
  match fuel with
  | 0 => none
  | fuel + 1 =>
    match new_variable srcVar vmap with
    | none => none
    | some (qv, vmap1) =>
        match canonicalize_scope fuel acd body (path ++ [0]) vmap1 types with
        | none => none
        | some (operand, vmap2) =>
            let vmap3 := vmap2.dropLast
            if ¬ operand.svars.contains qv then some (operand, vmap3)
            else if operand.tag == 6 || operand.tag == 7 then
              match process_commutative_quantifier_scope fuel q operand qv with
              | none => none
              | some out => some (out, vmap3)
            else if operand.tag = 8 then
              match process_conditional_quantifier_scope fuel q operand qv with
              | none => none
              | some out => some (out, vmap3)
            else some (make_quantifier_scope q operand qv, vmap3)
termination_by structural fuel

/-- `canonicalize_equals_scope` (lines 4899-5067). -/
def canonicalize_equals_scope (fuel : Nat) (acd : Bool) (lhs rhs : hol_term)
    (path : List Nat) (vmap : List (Nat × Nat))
    (types : List (List Nat × hol_type × hol_type)) :
    Option (hol_scope × List (Nat × Nat)) :=
  match fuel with
  | 0 => none
  | fuel + 1 =>
    match canonicalize_scope fuel acd lhs (path ++ [0]) vmap types with
    | none => none
    | some (left, vmap1) =>
        match lookup_eq_types types path with
        | none => none
        | some (lt, rt) =>
            let is_left_boolean := lt = HOL_BOOLEAN_TYPE
            let is_right_boolean := rt = HOL_BOOLEAN_TYPE
            if is_right_boolean && scope_is_fls left then
              match canonicalize_scope fuel acd rhs (path ++ [1]) vmap1 types with
              | none => none
              | some (out, vmap2) => some (negate_scope out, vmap2)
            else if is_right_boolean && scope_is_tru left then
              canonicalize_scope fuel acd rhs (path ++ [1]) vmap1 types
            else if is_right_boolean && left.tag = 10 then
              match canonicalize_scope fuel acd rhs (path ++ [1]) vmap1 types with
              | none => none
              | some (right, vmap2) =>
                  if scope_is_fls right then some (negate_iff left, vmap2)
                  else if scope_is_tru right then some (left, vmap2)
                  else
                    match left with
                    | .scomm 10 lvars lch lneg =>
                        (match right with
                        | .scomm 10 _ rch rneg =>
                            let (ch1, neg1, found) := merge_scopes_main 10 rch lch rneg lneg
                            let vars1 := recompute_variables ch1 neg1
                            let ch2 := if found then negate_iff_children ch1 else ch1
                            some (canonical_iff_tail (.scomm 10 vars1 ch2 neg1), vmap2)
                        | r =>
                            let (ch1, neg1, vars1, found) :=
                              add_to_scope_v 10 r lch lneg lvars
                            let ch2 := if found then negate_iff_children ch1 else ch1
                            some (canonical_iff_tail (.scomm 10 vars1 ch2 neg1), vmap2))
                    | _ => none
            else
              match canonicalize_scope fuel acd rhs (path ++ [1]) vmap1 types with
              | none => none
              | some (right, vmap2) =>
                  if is_left_boolean && scope_is_fls right then
                    some (negate_scope left, vmap2)
                  else if is_left_boolean && scope_is_tru right then
                    some (left, vmap2)
                  else if is_left_boolean && right.tag = 10 then
                    match right with
                    | .scomm 10 rvars rch rneg =>
                        let (ch1, neg1, vars1, found) :=
                          add_to_scope_v 10 left rch rneg rvars
                        let ch2 := if found then negate_iff_children ch1 else ch1
                        some (canonical_iff_tail (.scomm 10 vars1 ch2 neg1), vmap2)
                    | _ => none
                  else if scope_eq right left then some (.stru [], vmap2)
                  else
                    match left, right with
                    | .sconst lv c1, .sconst rv c2 =>
                        if acd && c1 ≠ c2 then some (.sfls [], vmap2)
                        else
                          canonicalize_equals_combine is_left_boolean is_right_boolean
                            (.sconst lv c1) (.sconst rv c2) vmap2
                    | _, _ =>
                        canonicalize_equals_combine is_left_boolean is_right_boolean
                          left right vmap2
termination_by structural fuel

/-- `canonicalize_scope` (lines 5069-5135), dispatching on the term variant. -/
def canonicalize_scope (fuel : Nat) (acd : Bool) (t : hol_term)
    (path : List Nat) (vmap : List (Nat × Nat))
    (types : List (List Nat × hol_type × hol_type)) :
    Option (hol_scope × List (Nat × Nat)) :=
  match fuel with
  | 0 => none
  | fuel + 1 =>
    match t with
    | .and ops => canonicalize_commutative_ops fuel acd 6 ops path 0 [] [] [] vmap types
    | .or ops => canonicalize_commutative_ops fuel acd 7 ops path 0 [] [] [] vmap types
    | .iff ops => canonicalize_commutative_ops fuel acd 10 ops path 0 [] [] [] vmap types
    | .if_then l r => canonicalize_conditional_scope fuel acd l r path vmap types
    | .for_all v op => canonicalize_quantifier_scope fuel acd 12 v op path vmap types
    | .exi v op => canonicalize_quantifier_scope fuel acd 13 v op path vmap types
    | .lam v op => canonicalize_quantifier_scope fuel acd 14 v op path vmap types
    | .not op =>
        (match canonicalize_scope fuel acd op (path ++ [0]) vmap types with
        | none => none
        | some (out, vmap1) => some (negate_scope out, vmap1))
    | .equals l r => canonicalize_equals_scope fuel acd l r path vmap types
    | .app1 l r =>
        (match canonicalize_scope fuel acd l (path ++ [0]) vmap types with
        | none => none
        | some (lo, vmap1) =>
            match canonicalize_scope fuel acd r (path ++ [1]) vmap1 types with
            | none => none
            | some (ro, vmap2) =>
                some (.sbin 4
                  (move_variables ro.svars (move_variables lo.svars [])) lo ro, vmap2))
    | .app2 f a b =>
        (match canonicalize_scope fuel acd f (path ++ [0]) vmap types with
        | none => none
        | some (fo, vmap1) =>
            match canonicalize_scope fuel acd a (path ++ [1]) vmap1 types with
            | none => none
            | some (ao, vmap2) =>
                match canonicalize_scope fuel acd b (path ++ [2]) vmap2 types with
                | none => none
                | some (bo, vmap3) =>
                    some (.ster
                      (move_variables bo.svars
                        (move_variables ao.svars (move_variables fo.svars []))) fo ao bo,
                      vmap3))
    | .const c => some (.sconst [] c, vmap)
    | .param p => some (.sparam [] p, vmap)
    | .int i => some (.sint [] i, vmap)
    | .var v =>
        (match vmap.find? (fun p => p.1 = v) with
        | some (_, dstv) => some (.svar [dstv] dstv, vmap)
        | none =>
            match new_variable v vmap with
            | none => none
            | some (dstv, vmap1) => some (.svar [dstv] dstv, vmap1))
    | .tru => some (.stru [], vmap)
    | .fls => some (.sfls [], vmap)
termination_by structural fuel
end

/-! #### `scope_to_term` (lines 3351-3681) and the top-level `canonicalize`
(lines 5149-5164).  All functions are fueled; `none` also models the `NULL`
return of the C++ default cases. -/

mutual
/-- `scope_to_term(const hol_scope&)`: convert a canonical scope back into a
    term. -/
def scope_to_term (fuel : Nat) (s : hol_scope) : Option hol_term :=
  match fuel with
  | 0 => none
  | fuel + 1 =>
    match s with
    | .scomm 6 _ ch neg => and_or_scope_to_term fuel 6 ch neg
    | .scomm 7 _ ch neg => and_or_scope_to_term fuel 7 ch neg
    | .scomm 10 _ ch neg =>
        (match ch.getLast? with
        | some (.sfls _) =>
            (match iff_scope_to_term_top fuel ch.dropLast neg with
            | none => none
            | some t => some (.not t))
        | _ => iff_scope_to_term_top fuel ch neg)
    | .snoncomm _ l ln r rn =>
        (match and_or_scope_to_term fuel 6 l ln with
        | none => none
        | some a =>
            match and_or_scope_to_term fuel 7 r rn with
            | none => none
            | some b => some (.if_then a b))
    | .snot _ op =>
        (match scope_to_term fuel op with
        | none => none
        | some t => some (.not t))
    | .squant 12 _ v op =>
        (match scope_to_term fuel op with
        | none => none
        | some t => some (.for_all v t))
    | .squant 13 _ v op =>
        (match scope_to_term fuel op with
        | none => none
        | some t => some (.exi v t))
    | .squant 14 _ v op =>
        (match scope_to_term fuel op with
        | none => none
        | some t => some (.lam v t))
    | .sbin 9 _ a b =>
        (match scope_to_term fuel a with
        | none => none
        | some ta =>
            match scope_to_term fuel b with
            | none => none
            | some tb => some (.equals ta tb))
    | .sbin 4 _ a b =>
        (match scope_to_term fuel a with
        | none => none
        | some ta =>
            match scope_to_term fuel b with
            | none => none
            | some tb => some (.app1 ta tb))
    | .ster _ a b c =>
        (match scope_to_term fuel a with
        | none => none
        | some ta =>
            match scope_to_term fuel b with
            | none => none
            | some tb =>
                match scope_to_term fuel c with
                | none => none
                | some tc => some (.app2 ta tb tc))
    | .svar _ v => some (.var v)
    | .sconst _ c => some (.const c)
    | .sparam _ p => some (.param p)
    | .sint _ i => some (.int i)
    | .stru _ => some .tru
    | .sfls _ => some .fls
    | _ => none
termination_by structural fuel

/-- Map `scope_to_term` over a list of scopes. -/
def map_scope_to_term (fuel : Nat) (l : List hol_scope) : Option (List hol_term) :=
  match fuel with
  | 0 => none
  | fuel + 1 =>
    match l with
    | [] => some []
    | x :: rest =>
        match scope_to_term fuel x with
        | none => none
        | some t =>
            match map_scope_to_term fuel rest with
            | none => none
            | some ts => some (t :: ts)
termination_by structural fuel

/-- `scope_to_term<ScopeType>(scope, scope_length, negated, negated_length)`
    for AND/OR: unwrap singletons, otherwise build the array term with the
    positive operands followed by the negated ones. -/
def and_or_scope_to_term (fuel : Nat) (op : Nat) (ch neg : List hol_scope) :
    Option hol_term :=
  match fuel with
  | 0 => none
  | fuel + 1 =>
    match ch, neg with
    | [x], [] => scope_to_term fuel x
    | [], [x] =>
        (match scope_to_term fuel x with
        | none => none
        | some t => some (.not t))
    | _, _ =>
        match map_scope_to_term fuel ch with
        | none => none
        | some ts =>
            match map_scope_to_term fuel neg with
            | none => none
            | some ns =>
                if op = 6 then some (.and (ts ++ ns.map hol_term.not))
                else some (.or (ts ++ ns.map hol_term.not))
termination_by structural fuel

/-- `iff_scope_to_term<Negated>(scope, scope_length, first)`: right-fold the
    operands into a chain of `EQUALS` nodes ending in `first`. -/
def iff_fold (fuel : Nat) (negated : Bool) (l : List hol_scope)
    (first : hol_term) : Option hol_term :=
  match fuel with
  | 0 => none
  | fuel + 1 =>
    match l with
    | [] => some first
    | x :: rest =>
        match iff_fold fuel negated rest first with
        | none => none
        | some acc =>
            match scope_to_term fuel x with
            | none => none
            | some t =>
                if negated then some (.equals (.not t) acc)
                else some (.equals t acc)
termination_by structural fuel

/-- `iff_scope_to_term(scope, scope_length, negated, negated_length)`. -/
def iff_scope_to_term_top (fuel : Nat) (ch neg : List hol_scope) :
    Option hol_term :=
  match fuel with
  | 0 => none
  | fuel + 1 =>
    match ch, neg with
    | [x], [] => scope_to_term fuel x
    | [], [x] =>
        (match scope_to_term fuel x with
        | none => none
        | some t => some (.not t))
    | _, _ =>
        match
          (match neg.getLast? with
          | some lastn =>
              (match scope_to_term fuel lastn with
              | none => none
              | some t => some (hol_term.not t, ch, neg.dropLast))
          | none =>
              match ch.getLast? with
              | some lastc =>
                  (match scope_to_term fuel lastc with
                  | none => none
                  | some t => some (t, ch.dropLast, neg))
              | none => none) with
        | none => none
        | some (right0, ch1, neg1) =>
            match iff_fold fuel true neg1 right0 with
            | none => none
            | some right1 => iff_fold fuel false ch1 right1
termination_by structural fuel
end

/-- `canonicalize(src, standard_canonicalizer<AllConstantsDistinct,
    PolymorphicEquality>)` (lines 5149-5164): type inference, scope
    canonicalization, conversion back to a term. -/
def canonicalize (fuel : Nat) (acd polyEq : Bool) (t : hol_term) :
    Option hol_term :=
  match compute_type_top fuel polyEq t with
  | none => none
  | some st =>
      match canonicalize_scope fuel acd t [] [] st.eq_types with
      | none => none
      | some (scope, _) => scope_to_term fuel scope

/-! ### `natural_deduction.h`

`nd_step` is the proof-step union (one constructor per `nd_step_type` value);
a step holds its operand steps directly.  `check_proof` is the per-step
checker (the `Formula = hol_term`, `Canonical = false` instantiation, so
`try_canonicalize` is the identity and the axiom canonicality check is
skipped).  Several statements of the C++ are ill-formed as written
(`pass_hypotheses` calls with two arrays match no overload; the
`DISJUNCTION_ELIMINATION` case uses `.` on pointers); where that happens we
embed the evident intent and note it.  Reads of `binary.left` on array-typed
terms (`AND`/`OR`/`IFF` in `CONJUNCTION_ELIMINATION_*` and
`BICONDITIONAL_ELIMINATION_*`) type-pun the union and are undefined:
embedded as `none`.  The four quantifier rules depend on the
`substitute`/unification machinery, which no claim mentions: they are
likewise embedded as `none`. -/

inductive nd_step where
  | ax (f : hol_term)
  | par (p : Nat)
  | arr_par (ps : List Nat)
  | term_par (t : hol_term)
  | formula_par (f : hol_term)
  | conj_intro (o1 o2 : nd_step)
  | conj_elim_left (o1 : nd_step)
  | conj_elim_right (o1 : nd_step)
  | disj_intro_left (o1 o2 : nd_step)
  | disj_intro_right (o1 o2 : nd_step)
  | disj_elim (o1 o2 o3 : nd_step)
  | impl_intro (o1 o2 : nd_step)
  | impl_elim (o1 o2 : nd_step)
  | bicond_intro (o1 o2 : nd_step)
  | bicond_elim_left (o1 o2 : nd_step)
  | bicond_elim_right (o1 o2 : nd_step)
  | contradiction (o1 o2 : nd_step)
  | neg_elim (o1 o2 : nd_step)
  | univ_intro (o1 o2 : nd_step)
  | univ_elim (o1 o2 : nd_step)
  | exist_intro (o1 o2 : nd_step)
  | exist_elim (o1 o2 : nd_step)
deriving DecidableEq

/-- `nd_step::has_subproofs()` (lines 66-94): the switch returns `false` for
    `TERM_PARAMETER`, `ARRAY_PARAMETER`, `AXIOM`, `FORMULA_PARAMETER` and all
    seventeen inference variants, but `PARAMETER` is absent from it, so a
    parameter step falls through to the trailing
    `fprintf` + `exit(EXIT_FAILURE)` — modelled as `none`. -/
def nd_step.has_subproofs : nd_step → Option Bool
  | .term_par _ => some false
  | .arr_par _ => some false
  | .ax _ => some false
  | .formula_par _ => some false
  | .par _ => none
  | .conj_intro _ _ => some false
  | .conj_elim_left _ => some false
  | .conj_elim_right _ => some false
  | .disj_intro_left _ _ => some false
  | .disj_intro_right _ _ => some false
  | .disj_elim _ _ _ => some false
  | .impl_intro _ _ => some false
  | .impl_elim _ _ => some false
  | .bicond_intro _ _ => some false
  | .bicond_elim_left _ _ => some false
  | .bicond_elim_right _ _ => some false
  | .contradiction _ _ => some false
  | .neg_elim _ _ => some false
  | .univ_intro _ _ => some false
  | .univ_elim _ _ => some false
  | .exist_intro _ _ => some false
  | .exist_elim _ _ => some false

/-- The `operands` array of a step (leaf variants have none). -/
def nd_step.operands : nd_step → List nd_step
  | .ax _ | .par _ | .arr_par _ | .term_par _ | .formula_par _ => []
  | .conj_intro a b => [a, b]
  | .conj_elim_left a => [a]
  | .conj_elim_right a => [a]
  | .disj_intro_left a b => [a, b]
  | .disj_intro_right a b => [a, b]
  | .disj_elim a b c => [a, b, c]
  | .impl_intro a b => [a, b]
  | .impl_elim a b => [a, b]
  | .bicond_intro a b => [a, b]
  | .bicond_elim_left a b => [a, b]
  | .bicond_elim_right a b => [a, b]
  | .contradiction a b => [a, b]
  | .neg_elim a b => [a, b]
  | .univ_intro a b => [a, b]
  | .univ_elim a b => [a, b]
  | .exist_intro a b => [a, b]
  | .exist_elim a b => [a, b]

/-- `proof_state`: the conclusion (`NULL`able) and assumption list of a
    checked subproof. -/
structure proof_state where
  assumptions : List hol_term
  formula : Option hol_term
deriving DecidableEq

/-- `pass_hypotheses(dst, first, discharge_first)` (lines 264-277): append
    `first` minus every element equal to `discharge_first`; the returned flag
    records whether anything was discharged. -/
def pass_hypotheses_discharge (dst first : List hol_term) (discharge : hol_term) :
    List hol_term × Bool :=
  (dst ++ first.filter (fun f => f ≠ discharge), first.any (fun f => f = discharge))

/-- `check_proof(out, proof, operand_states)` (lines 353-552) at
    `Canonical = false`.  `none` models `return false` and the
    undefined/unembedded cases described above. -/
def check_proof (proof : nd_step) (operand_states : List proof_state) :
    Option proof_state :=
  match proof with
  | .ax f => some ⟨[f], some f⟩
  | .conj_intro _ _ =>
      (match operand_states.get? 0, operand_states.get? 1 with
      | some s0, some s1 =>
          match s0.formula, s1.formula with
          | some f0, some f1 =>
              /- the two-array `pass_hypotheses` call matches no overload;
                 we embed the evident append -/
              some ⟨s0.assumptions ++ s1.assumptions, some (.and [f0, f1])⟩
          | _, _ => none
      | _, _ => none)
  | .conj_elim_left _ => none  /- reads `binary.left` of an array term -/
  | .conj_elim_right _ => none
  | .disj_intro_left _ o2 =>
      (match operand_states.get? 0, o2 with
      | some s0, .formula_par g =>
          (match s0.formula with
          | some f0 => some ⟨s0.assumptions, some (.or [f0, g])⟩
          | none => none)
      | _, _ => none)
  | .disj_intro_right _ o2 =>
      (match operand_states.get? 0, o2 with
      | some s0, .formula_par g =>
          (match s0.formula with
          | some f0 => some ⟨s0.assumptions, some (.or [g, f0])⟩
          | none => none)
      | _, _ => none)
  | .disj_elim _ _ _ =>
      (match operand_states.get? 0, operand_states.get? 1, operand_states.get? 2 with
      | some s0, some s1, some s2 =>
          match s0.formula, s1.formula, s2.formula with
          | some f0, some f1, some f2 =>
              (match f0 with
              | .or ops =>
                  if f1 ≠ f2 then none
                  else
                    (match ops.get? 0, ops.get? 1 with
                    | some dl, some dr =>
                        /- line 420: `out.formula = operand_states[0]->formula`
                           — the conclusion is F0, the disjunction itself.
                           Lines 421-424 are ill-formed as written; the
                           assumption bookkeeping embeds the evident intent
                           A0 with (A1 minus the left disjunct) and (A2 minus
                           the right disjunct), both discharges required. -/
                        let (a1, d1) := pass_hypotheses_discharge [] s1.assumptions dl
                        let (a2, d2) := pass_hypotheses_discharge [] s2.assumptions dr
                        if d1 && d2 then
                          some ⟨s0.assumptions ++ a1 ++ a2, some f0⟩
                        else none
                    | _, _ => none)
              | _ => none)
          | _, _, _ => none
      | _, _, _ => none)
  | .impl_intro _ o2 =>
      (match operand_states.get? 0, operand_states.get? 1 with
      | some s0, some s1 =>
          match s0.formula, s1.formula with
          | some f0, some f1 =>
              (match o2 with
              | .ax _ =>
                  let (a, discharged) := pass_hypotheses_discharge [] s0.assumptions f1
                  if discharged then some ⟨a, some (.if_then f1 f0)⟩ else none
              | _ => none)
          | _, _ => none
      | _, _ => none)
  | .impl_elim _ _ =>
      (match operand_states.get? 0, operand_states.get? 1 with
      | some s0, some s1 =>
          match s0.formula, s1.formula with
          | some (.if_then a b), some f1 =>
              if a ≠ f1 then none
              else some ⟨s0.assumptions ++ s1.assumptions, some b⟩
          | _, _ => none
      | _, _ => none)
  | .bicond_intro _ _ =>
      (match operand_states.get? 0, operand_states.get? 1 with
      | some s0, some s1 =>
          match s0.formula, s1.formula with
          | some (.if_then a0 b0), some (.if_then a1 b1) =>
              /- lines 447-448: the step FAILS when
                 `*f0->binary.left == *f1->binary.right` or
                 `*f0->binary.right == *f1->binary.left`.  The emitted
                 conclusion is `Formula::new_iff(a0, b0)`, and `new_iff`
                 forwards to `new_equals_helper`, which constructs an
                 `EQUALS` binary term (higher_order_logic.h lines
                 1522-1533); `try_canonicalize<false>` leaves it as is. -/
              if a0 = b1 || b0 = a1 then none
              else some ⟨s0.assumptions ++ s1.assumptions, some (.equals a0 b0)⟩
          | _, _ => none
      | _, _ => none)
  | .bicond_elim_left _ _ => none  /- reads `binary.left` of an array term -/
  | .bicond_elim_right _ _ => none
  | .contradiction _ o2 =>
      (match operand_states.get? 0, operand_states.get? 1 with
      | some s0, some s1 =>
          match s0.formula, s1.formula with
          | some .fls, some (.not _) =>
              (match o2 with
              | .ax (.not g) =>
                  let (a, discharged) := pass_hypotheses_discharge [] s0.assumptions (.not g)
                  if discharged then some ⟨a, some g⟩ else none
              | _ => none)
          | _, _ => none
      | _, _ => none)
  | .neg_elim _ _ =>
      (match operand_states.get? 0, operand_states.get? 1 with
      | some s0, some s1 =>
          match s0.formula, s1.formula with
          | some f0, some (.not g) =>
              if f0 ≠ g then none
              else some ⟨s0.assumptions ++ s1.assumptions, some .fls⟩
          | _, _ => none
      | _, _ => none)
  | .univ_intro _ _ => none
  | .univ_elim _ _ => none
  | .exist_intro _ _ => none
  | .exist_elim _ _ => none
  | .par _ | .arr_par _ | .term_par _ | .formula_par _ => none

/-- Look up a node in the in-degree map. -/
def degrees_find (degrees : List (nd_step × Nat)) (n : nd_step) : Option Nat :=
  match degrees.find? (fun e => e.1 = n) with
  | some (_, d) => some d
  | none => none

/-- Bump a node's in-degree (inserting it at 1 when absent), as in lines
    582-589. -/
def degrees_bump (degrees : List (nd_step × Nat)) (n : nd_step) :
    List (nd_step × Nat) :=
  match degrees_find degrees n with
  | some _ => degrees.map (fun e => if e.1 = n then (e.1, e.2 + 1) else e)
  | none => degrees ++ [(n, 1)]

/-- The operand loop of `compute_in_degrees` (lines 579-595). -/
def in_degrees_operands (ops : List nd_step) (degrees : List (nd_step × Nat))
    (visited stack : List nd_step) :
    List (nd_step × Nat) × List nd_step :=
  match ops with
  | [] => (degrees, stack)
  | op :: rest =>
      let degrees1 := degrees_bump degrees op
      let stack1 := if visited.contains op then stack else stack ++ [op]
      in_degrees_operands rest degrees1 visited stack1

/-- The work-list loop of `compute_in_degrees` (lines 562-596).  The C++
    stack pops from the back; nodes with `has_subproofs() = false` are
    skipped entirely (line 567). -/
def compute_in_degrees_loop (fuel : Nat) (stack visited : List nd_step)
    (degrees : List (nd_step × Nat)) : Option (List (nd_step × Nat)) :=
  match fuel with
  | 0 => none
  | fuel + 1 =>
    match stack.getLast? with
    | none => some degrees
    | some node =>
        let stack1 := stack.dropLast
        let visited1 := visited ++ [node]
        match node.has_subproofs with
        | none => none
        | some b =>
          if ¬ b then
            compute_in_degrees_loop fuel stack1 visited1 degrees
          else
            let degrees1 :=
              match degrees_find degrees node with
              | some _ => degrees
              | none => degrees ++ [(node, 0)]
            let (degrees2, stack2) :=
              in_degrees_operands node.operands degrees1 visited1 stack1
            compute_in_degrees_loop fuel stack2 visited1 degrees2
termination_by structural fuel

/-- `compute_in_degrees(proof, in_degrees)` (lines 554-599). -/
def compute_in_degrees (fuel : Nat) (proof : nd_step) :
    Option (List (nd_step × Nat)) :=
  compute_in_degrees_loop fuel [proof] [] []

/-! ### `set_reasoning.h`

The state of a `set_reasoning<hol_term>` object.  `core::array::remove` is
the usual swap-with-last removal; `hash_map`s are embedded as association
lists in insertion order (hash iteration order is the one determinization
this embedding fixes).  Reading `sets[i]` or a graph vertex that is not
allocated is undefined behaviour in the C++ and maps to `none`.  Edge lists
are assumed duplicate-free (the iterate-while-removing loop in
`set_graph::free_set<true>` then visits exactly the original elements, as a
slot `i` of the backing buffer is only ever overwritten by a swap with
target index `< i`). -/

/-- Association-list lookup. -/
def assoc_find {α β : Type} [DecidableEq α] (l : List (α × β)) (k : α) :
    Option β :=
  match l.find? (fun e => e.1 = k) with
  | some (_, v) => some v
  | none => none

/-- Association-list update of an existing key. -/
def assoc_update {α β : Type} [DecidableEq α] (l : List (α × β)) (k : α)
    (v : β) : List (α × β) :=
  l.map (fun e => if e.1 = k then (k, v) else e)

/-- `core::array::remove(i)`: move the last element into slot `i` and
    shrink. -/
def swap_remove (l : List Nat) (i : Nat) : List Nat :=
  match l.getLast? with
  | none => l
  | some last => (l.set i last).dropLast

/-- `set_vertex`. -/
structure set_vertex where
  parents : List Nat
  children : List Nat
deriving DecidableEq, Repr

/-- A `set_graph`: the allocated vertices with their edge lists. -/
def set_graph : Type := List (Nat × set_vertex)

instance : DecidableEq set_graph := by
  unfold set_graph; infer_instance

/-- `set_graph::add_edge(parent, child)` (lines 81-89). -/
def add_edge (g : set_graph) (parent child : Nat) : Option set_graph :=
  match assoc_find g parent with
  | none => none
  | some pv =>
      let g1 := assoc_update g parent { pv with children := pv.children ++ [child] }
      match assoc_find g1 child with
      | none => none
      | some cv =>
          some (assoc_update g1 child { cv with parents := cv.parents ++ [parent] })

/-- `set_graph::remove_edge(parent, child)` (lines 91-104); removing an edge
    that is not present indexes one past the end (undefined). -/
def remove_edge (g : set_graph) (parent child : Nat) : Option set_graph :=
  match assoc_find g parent with
  | none => none
  | some pv =>
      let i := pv.children.indexOf child
      if i = pv.children.length then none
      else
        let g1 := assoc_update g parent { pv with children := swap_remove pv.children i }
        match assoc_find g1 child with
        | none => none
        | some cv =>
            let j := cv.parents.indexOf parent
            if j = cv.parents.length then none
            else some (assoc_update g1 child { cv with parents := swap_remove cv.parents j })

/-- `set_graph::free_set<CleanupEdges>` (lines 70-79): optionally remove all
    incident edges, then deallocate the vertex. -/
def graph_free_set (cleanupEdges : Bool) (g : set_graph) (id : Nat) :
    Option set_graph :=
  match assoc_find g id with
  | none => none
  | some v =>
      let cleaned :=
        if cleanupEdges then
          (v.parents.foldl (fun acc p =>
            match acc with
            | none => none
            | some g1 => remove_edge g1 p id) (some g)).bind
          (fun g1 => v.children.foldl (fun acc c =>
            match acc with
            | none => none
            | some g2 => remove_edge g2 id c) (some g1))
        else some g
      match cleaned with
      | none => none
      | some g2 => some (g2.filter (fun e => e.1 ≠ id))

/-- `get_descendants(graph, vertex, descendants)` (lines 142-175): the
    work-list closure of the `children` relation, including the start
    vertex.  Only membership in the result is ever used, so the visit counts
    of the C++ map are dropped. -/
def graph_descendants_loop (fuel : Nat) (g : set_graph)
    (stack keys : List Nat) : Option (List Nat) :=
  match fuel with
  | 0 => none
  | fuel + 1 =>
    match stack.getLast? with
    | none => some keys
    | some v =>
        let stack1 := stack.dropLast
        match assoc_find g v with
        | none => none
        | some vtx =>
            let (keys2, stack2) := vtx.children.foldl
              (fun (acc : List Nat × List Nat) c =>
                if acc.1.contains c then acc
                else (acc.1 ++ [c], acc.2 ++ [c]))
              (keys, stack1)
            graph_descendants_loop fuel g stack2 keys2
termination_by structural fuel

/-- `get_descendants` (template version over one graph). -/
def graph_descendants (fuel : Nat) (g : set_graph) (vertex : Nat) :
    Option (List Nat) :=
  graph_descendants_loop fuel g [vertex] [vertex]

/-- `set_info` (lines 177-198). -/
structure set_info where
  set_size : Nat
  fixed_set_size : Bool
  set_formula : hol_term
deriving DecidableEq

/-- The mutable state of `set_reasoning` (lines 200-610). -/
structure set_reasoning where
  extensional_graph : set_graph
  intensional_graph : set_graph
  sets : List (Nat × set_info)
  set_ids : List (hol_term × Nat)
deriving DecidableEq

/-- `intersect(first, second)` (`higher_order_logic.h` lines 5331-5339):
    canonicalize the binary conjunction with
    `standard_canonicalizer<false, false>`. -/
def intersect (fuel : Nat) (first second : hol_term) : Option hol_term :=
  canonicalize fuel false false (.and [first, second])

/-- `set_reasoning::are_disjoint(first_set, second_set)` (lines 601-609). -/
def are_disjoint (fuel : Nat) (S : set_reasoning) (first_set second_set : Nat) :
    Option Bool :=
  match assoc_find S.sets first_set, assoc_find S.sets second_set with
  | some i1, some i2 =>
      (match intersect fuel i1.set_formula i2.set_formula with
      | none => none  /- `canonicalize` returned NULL; `*intersection` is UB -/
      | some inter =>
          match assoc_find S.set_ids inter with
          | none => some false
          | some id =>
              match assoc_find S.sets id with
              | none => none
              | some info => some (info.set_size == 0))
  | _, _ => none

/-- `set_reasoning::get_set_id(formula, set_id)` (lines 418-433), restricted
    to the lookup path.  The miss path calls `new_set`, which builds the
    intensional lattice and an initial size from the clique bounds; no claim
    exercises it, so it is left unembedded (`none`). -/
def get_set_id (S : set_reasoning) (formula : hol_term) : Option Nat :=
  assoc_find S.set_ids formula

/-- `set_reasoning::is_freeable(set_id)` (lines 259-263). -/
def is_freeable (S : set_reasoning) (set_id : Nat) : Option Bool :=
  match assoc_find S.sets set_id, assoc_find S.extensional_graph set_id with
  | some info, some v =>
      some (!info.fixed_set_size && v.children.isEmpty && v.parents.isEmpty)
  | _, _ => none

/-- `set_reasoning::set_size(formula, new_size)` (lines 499-507): look the
    set up and store `new_size`; the `NOTE` in the source says the caller is
    assumed to keep `new_size` within the bounds — the function itself never
    checks them. -/
def set_size (S : set_reasoning) (formula : hol_term) (new_size : Nat) :
    Option set_reasoning :=
  match get_set_id S formula with
  | none => none
  | some set_id =>
      match assoc_find S.sets set_id with
      | none => none
      | some info =>
          some { S with sets := assoc_update S.sets set_id { info with set_size := new_size } }

/-- The bypass-edge step of `set_reasoning::free_set(set_id)` (lines
    394-403): for every former intensional parent, connect it to every
    former intensional child unless a path already exists. -/
def free_set_bypass (fuel : Nat) (g : set_graph)
    (parents children : List Nat) : Option set_graph :=
  parents.foldl
    (fun acc parent =>
      match acc with
      | none => none
      | some g1 =>
          match graph_descendants fuel g1 parent with
          | none => none
          | some desc =>
              children.foldl
                (fun acc2 child =>
                  match acc2 with
                  | none => none
                  | some g2 =>
                      if desc.contains child then some g2
                      else add_edge g2 parent child)
                (some g1))
    (some g)

/-- `set_reasoning::free_set(set_id)` (lines 388-405).  The C++ frees the
    vertex and then reads its `parents`/`children` arrays (a use after
    free); we embed the evidently intended semantics, reading them before
    the free. -/
def free_set (fuel : Nat) (S : set_reasoning) (set_id : Nat) :
    Option set_reasoning :=
  match assoc_find S.intensional_graph set_id with
  | none => none
  | some intv =>
      match graph_free_set true S.intensional_graph set_id with
      | none => none
      | some g1 =>
          match graph_free_set true S.extensional_graph set_id with
          | none => none
          | some e1 =>
              match free_set_bypass fuel g1 intv.parents intv.children with
              | none => none
              | some g2 =>
                  some { extensional_graph := e1, intensional_graph := g2,
                         sets := S.sets.filter (fun e => e.1 ≠ set_id),
                         set_ids := S.set_ids }

/-- `set_reasoning::free_set(formula, set_id)` (lines 407-416): also drop
    the `set_ids` entry. -/
def free_set_formula (fuel : Nat) (S : set_reasoning) (formula : hol_term)
    (set_id : Nat) : Option set_reasoning :=
  match free_set fuel S set_id with
  | none => none
  | some S1 =>
      match assoc_find S1.set_ids formula with
      | none => none
      | some _ => some { S1 with set_ids := S1.set_ids.filter (fun e => e.1 ≠ formula) }

/-- `set_reasoning::add_subset_relation(antecedent, consequent)` (lines
    435-458), on formulas whose sets are registered.  When the two ids
    coincide no edge is added and the function returns `true`; the final
    `find_largest_disjoint_clique_with_set<0>` call takes the structure by
    `const` reference and its result is discarded (the TODO on line 454), so
    it has no effect on the state. -/
def add_subset_relation (S : set_reasoning) (antecedent consequent : hol_term) :
    Option (Bool × set_reasoning) :=
  match get_set_id S antecedent with
  | none => none
  | some antecedent_set =>
      match get_set_id S consequent with
      | none => none
      | some consequent_set =>
          if consequent_set ≠ antecedent_set then
            match add_edge S.extensional_graph consequent_set antecedent_set with
            | none => none
            | some g => some (true, { S with extensional_graph := g })
          else some (true, S)

/-- `set_reasoning::remove_subset_relation(antecedent, consequent)` (lines
    460-479).  When the freed antecedent and consequent coincide, the second
    `is_freeable` reads the freed `set_info` (undefined): `none`. -/
def remove_subset_relation (fuel : Nat) (S : set_reasoning)
    (antecedent consequent : hol_term) : Option set_reasoning :=
  match get_set_id S antecedent, get_set_id S consequent with
  | some antecedent_set, some consequent_set =>
      (match
        (if consequent_set ≠ antecedent_set then
          match remove_edge S.extensional_graph consequent_set antecedent_set with
          | none => none
          | some g => some { S with extensional_graph := g }
        else some S) with
      | none => none
      | some S1 =>
          match is_freeable S1 consequent_set with
          | none => none
          | some fc =>
              match
                (if fc then free_set_formula fuel S1 consequent consequent_set
                else some S1) with
              | none => none
              | some S2 =>
                  match is_freeable S2 antecedent_set with
                  | none => none
                  | some fa =>
                      if fa then free_set_formula fuel S2 antecedent antecedent_set
                      else some S2)
  | _, _ => none

/-! #### Clique search (`set_reasoning.h` lines 612-1216)

`search_queue` is a `std::multiset` ordered by stored priority; `pop` takes
the largest element (the most recently inserted among ties, since multiset
insertion places equal keys last).  It is embedded as an ascending sorted
list with insertion after equal priorities and `pop` from the back.
Machine-`int` overflow of priorities is not modelled (all verified states
have small sizes). -/

/-- `get_descendants(sets, descendants, root)` (lines 776-795): the
    descendants of `root` across both graphs, including `root`.  The C++
    memoization cache is pure and is dropped; the recursion has no cycle
    guard (a cycle is non-termination), hence the fuel. -/
def set_descendants (fuel : Nat) (S : set_reasoning) (root : Nat) :
    Option (List Nat) :=
  match fuel with
  | 0 => none
  | fuel + 1 =>
    match assoc_find S.extensional_graph root, assoc_find S.intensional_graph root with
    | some ev, some iv =>
        (ev.children ++ iv.children).foldl
          (fun acc c =>
            match acc with
            | none => none
            | some keys =>
                match set_descendants fuel S c with
                | none => none
                | some d => some (keys ++ d.filter (fun x => ¬ keys.contains x)))
          (some [root])
    | _, _ => none
termination_by structural fuel

/-- `has_descendant(sets, descendants, root, vertex)` (lines 797-803). -/
def has_descendant (fuel : Nat) (S : set_reasoning) (root vertex : Nat) :
    Option Bool :=
  match set_descendants fuel S root with
  | none => none
  | some d => some (d.contains vertex)

/-- Whether any element of `l` has `v` among its descendants. -/
def any_has_descendant (fuel : Nat) (S : set_reasoning) (l : List Nat)
    (v : Nat) : Option Bool :=
  l.foldl
    (fun acc x =>
      match acc with
      | none => none
      | some b =>
          match has_descendant fuel S x v with
          | none => none
          | some b2 => some (b || b2))
    (some false)

/-- The `was_visited` test of lines 833-837 / 842-846. -/
def expand_visited_check (fuel : Nat) (S : set_reasoning)
    (X nb visited : List Nat) (child : Nat) : Option Bool :=
  if visited.contains child then some true
  else
    match any_has_descendant fuel S X child with
    | none => none
    | some b1 =>
        match any_has_descendant fuel S nb child with
        | none => none
        | some b2 => some (b1 || b2)

mutual
/-- `expand_clique_search_state` (lines 805-852).  The `X` argument is the
    snapshot the C++ passes by pointer; `neighborhood` and `visited` thread
    through.  Returns the updated (neighborhood, visited). -/
def expand_clique_search_state (fuel : Nat) (S : set_reasoning)
    (nb X visited : List Nat) (set_to_expand root : Nat) :
    Option (List Nat × List Nat) :=
  match fuel with
  | 0 => none
  | fuel + 1 =>
    let visited1 := visited ++ [root]
    match are_disjoint fuel S set_to_expand root with
    | none => none
    | some true =>
        (match expand_remove_loop fuel S nb 0 root with
        | none => none
        | some nb1 => some (nb1 ++ [root], visited1))
    | some false =>
        match assoc_find S.extensional_graph root, assoc_find S.intensional_graph root with
        | some ev, some iv =>
            (match expand_children fuel S ev.children X nb visited1 set_to_expand with
            | none => none
            | some (nb1, vis1) =>
                expand_children fuel S iv.children X nb1 vis1 set_to_expand)
        | _, _ => none
termination_by structural fuel

/-- One child loop of `expand_clique_search_state` (lines 831-839 and
    840-848). -/
def expand_children (fuel : Nat) (S : set_reasoning) (children : List Nat)
    (X : List Nat) (nb visited : List Nat) (set_to_expand : Nat) :
    Option (List Nat × List Nat) :=
  match fuel with
  | 0 => none
  | fuel + 1 =>
    match children with
    | [] => some (nb, visited)
    | c :: rest =>
        match assoc_find S.sets c with
        | none => none
        | some info =>
            if info.set_size = 0 then
              expand_children fuel S rest X nb visited set_to_expand
            else
              match expand_visited_check fuel S X nb visited c with
              | none => none
              | some true => expand_children fuel S rest X nb visited set_to_expand
              | some false =>
                  match expand_clique_search_state fuel S nb X visited set_to_expand c with
                  | none => none
                  | some (nb1, vis1) =>
                      expand_children fuel S rest X nb1 vis1 set_to_expand
termination_by structural fuel

/-- Lines 818-819: drop every neighborhood member that has `root` among its
    descendants (`array::remove` is swap-with-last, `i--` re-examines the
    swapped-in element). -/
def expand_remove_loop (fuel : Nat) (S : set_reasoning) (nb : List Nat)
    (i : Nat) (root : Nat) : Option (List Nat) :=
  match fuel with
  | 0 => none
  | fuel + 1 =>
    if h : i < nb.length then
      match has_descendant fuel S (nb.get ⟨i, h⟩) root with
      | none => none
      | some true => expand_remove_loop fuel S (swap_remove nb i) i root
      | some false => expand_remove_loop fuel S nb (i + 1) root
    else some nb
termination_by structural fuel
end

/-- `clique_search_state` (lines 612-631). -/
structure clique_search_state where
  clique : List Nat
  neighborhood : List Nat
  X : List Nat
  next_set : Nat
  priority : Int
deriving DecidableEq

/-- A queue element: the state plus, for
    `find_largest_disjoint_clique_with_set`, its candidate ancestor. -/
structure search_entry where
  st : clique_search_state
  ancestor : Option Nat
deriving DecidableEq

/-- `std::multiset` insertion: ascending by priority, after equal keys. -/
def queue_insert (q : List search_entry) (e : search_entry) : List search_entry :=
  match q with
  | [] => [e]
  | h :: t => if e.st.priority < h.st.priority then e :: h :: t else h :: queue_insert t e

/-- Sum of the stored sizes of the given sets (line 890-893 etc.). -/
def sum_sizes (S : set_reasoning) (l : List Nat) : Option Int :=
  l.foldl
    (fun acc x =>
      match acc, assoc_find S.sets x with
      | some a, some info => some (a + (info.set_size : Int))
      | _, _ => none)
    (some 0)

/-- The push loops of `process_clique_search_state` (lines 895-912 and
    938-955): `cnt` counts the remaining indices from `i`; `skipZero`
    distinguishes the child loop, which skips zero-size sets without a
    priority decrement.  The stored priority of a pushed state is the
    running priority minus `adj` (`adj` is `sets[ancestor].set_size` for
    ancestor states, 0 otherwise; cf. lines 694-708). -/
def push_states_loop (S : set_reasoning) (minPriority : Option Int)
    (adj : Int) (ancestor : Option Nat) (nb : List Nat) (cnt i : Nat)
    (clique : List Nat) (priority : Int) (acc : List search_entry)
    (skipZero : Bool) : Option (List search_entry × Int) :=
  match cnt with
  | 0 => some (acc, priority)
  | cnt + 1 =>
      if (match minPriority with | some m => decide (priority < m) | none => false) then
        some (acc, priority)
      else
        match nb.get? i with
        | none => none
        | some x =>
            match assoc_find S.sets x with
            | none => none
            | some info =>
                if skipZero && info.set_size = 0 then
                  push_states_loop S minPriority adj ancestor nb cnt (i + 1)
                    clique priority acc skipZero
                else
                  let e : search_entry :=
                    ⟨⟨clique, nb.drop (i + 1), nb.take i, x, priority - adj⟩, ancestor⟩
                  push_states_loop S minPriority adj ancestor nb cnt (i + 1)
                    clique (priority - (info.set_size : Int)) (acc ++ [e]) skipZero

/-- `process_clique_search_state<RecurseChildren, TestCompletion,
    ReturnOnCompletion, MinPriority>` (lines 854-959).  Returns the states
    pushed onto the queue (in push order) and the completed clique, if any.
    In every instantiation the source uses, a completed clique means the
    children recursion does not run. -/
def process_clique_search_state (fuel : Nat) (recurseChildren testCompletion : Bool)
    (minPriority : Option Int) (S : set_reasoning) (st : clique_search_state)
    (adj : Int) (ancestor : Option Nat) :
    Option (List search_entry × Option (List Nat)) :=
  match fuel with
  | 0 => none
  | fuel + 1 =>
    let new_clique := st.clique ++ [st.next_set]
    match
      st.X.foldl
        (fun acc x =>
          match acc with
          | none => none
          | some (nb, vis) => expand_clique_search_state fuel S nb nb vis st.next_set x)
        (some ([], [])) with
    | none => none
    | some (nbX, visX) =>
        let new_X_count := nbX.length
        match
          st.neighborhood.foldl
            (fun acc n =>
              match acc with
              | none => none
              | some (nb, vis) =>
                  expand_clique_search_state fuel S nb (nb.take new_X_count) vis st.next_set n)
            (some (nbX, visX)) with
        | none => none
        | some (nb2, _) =>
            match assoc_find S.sets st.next_set with
            | none => none
            | some nextInfo =>
                match sum_sizes S st.clique, sum_sizes S (nb2.drop new_X_count) with
                | some cs, some ss =>
                    let priority0 : Int := (nextInfo.set_size : Int) + cs + ss
                    match push_states_loop S minPriority adj ancestor nb2
                        (nb2.length - new_X_count) new_X_count new_clique priority0 [] false with
                    | none => none
                    | some (pushes1, priority1) =>
                        let completed :=
                          if testCompletion && st.neighborhood.isEmpty && st.X.isEmpty then
                            some new_clique
                          else none
                        if completed.isSome then some (pushes1, completed)
                        else if ¬ recurseChildren then some (pushes1, none)
                        else
                          match assoc_find S.extensional_graph st.next_set,
                                assoc_find S.intensional_graph st.next_set with
                          | some extv, some intv =>
                              let nb3 := nb2 ++ extv.children ++
                                intv.children.filter (fun c => ¬ extv.children.contains c)
                              let old_len := nb2.length
                              (match sum_sizes S (nb3.drop old_len) with
                              | none => none
                              | some ns =>
                                  let priority2 := priority1 - (nextInfo.set_size : Int) + ns
                                  match push_states_loop S minPriority adj ancestor nb3
                                      (nb3.length - old_len) old_len st.clique priority2 [] true with
                                  | none => none
                                  | some (pushes2, _) => some (pushes1 ++ pushes2, none))
                          | _, _ => none
                | _, _ => none

/-- The main loop of `find_largest_disjoint_subset_clique` (lines 979-987). -/
def subset_clique_loop (fuel : Nat) (S : set_reasoning)
    (queue : List search_entry) : Option (Option (List Nat)) :=
  match fuel with
  | 0 => none
  | fuel + 1 =>
    match queue.getLast? with
    | none => some none
    | some e =>
        match process_clique_search_state fuel true true none S e.st 0 none with
        | none => none
        | some (pushes, completed) =>
            match completed with
            | some c => some (some c)
            | none => subset_clique_loop fuel S (pushes.foldl queue_insert queue.dropLast)
termination_by structural fuel

/-- `find_largest_disjoint_subset_clique(sets, root, clique, clique_count)`
    (lines 961-991); the inner `none` is the `NULL` clique. -/
def find_largest_disjoint_subset_clique (fuel : Nat) (S : set_reasoning)
    (root : Nat) : Option (Option (List Nat)) :=
  let init : clique_search_state := ⟨[], [], [], root, 0⟩
  match process_clique_search_state fuel true false none S init 0 none with
  | none => none
  | some (pushes, _) => subset_clique_loop fuel S (pushes.foldl queue_insert [])

/-- The ancestor-collection loop of `find_largest_disjoint_clique_with_set`
    (lines 1085-1105): `nan` is the `non_ancestor_neighborhood` map. -/
def collect_ancestors_loop (fuel : Nat) (S : set_reasoning)
    (stack : List Nat) (nan : List (Nat × List Nat)) :
    Option (List (Nat × List Nat)) :=
  match fuel with
  | 0 => none
  | fuel + 1 =>
    match stack.getLast? with
    | none => some nan
    | some current =>
        let stack1 := stack.dropLast
        let nan1 :=
          if (nan.find? (fun e => e.1 = current)).isSome then nan
          else nan ++ [(current, [])]
        match assoc_find S.extensional_graph current,
              assoc_find S.intensional_graph current with
        | some ev, some iv =>
            let stack2 := (ev.parents ++ iv.parents).foldl
              (fun st p =>
                if (nan1.find? (fun e => e.1 = p)).isSome then st else st ++ [p])
              stack1
            collect_ancestors_loop fuel S stack2 nan1
        | _, _ => none
termination_by structural fuel

/-- `add_non_ancestor_neighbor` (lines 993-1010): merge the child's own
    neighborhood if the child is an ancestor, otherwise add the child. -/
def add_non_ancestor_neighbor (child : Nat) (changed : Bool)
    (neighborhood : List Nat) (nan : List (Nat × List Nat)) :
    Bool × List Nat :=
  match assoc_find nan child with
  | some child_nb =>
      child_nb.foldl
        (fun (acc : Bool × List Nat) cn =>
          if acc.2.contains cn then acc else (true, acc.2 ++ [cn]))
        (changed, neighborhood)
  | none => (true, neighborhood ++ [child])

/-- `process_ancestor_parent` (lines 1107-1113): update `parent`'s
    neighborhood from its children and reschedule it if it changed.  The
    C++ fetches the map entry without a `contains` check. -/
def process_ancestor_parent (S : set_reasoning) (parent : Nat)
    (nan : List (Nat × List Nat)) (stack : List Nat) :
    Option (List (Nat × List Nat) × List Nat) :=
  match assoc_find nan parent with
  | none => none
  | some nb0 =>
      match assoc_find S.extensional_graph parent,
            assoc_find S.intensional_graph parent with
      | some ev, some iv =>
          let (changed, nb1) := (ev.children ++ iv.children).foldl
            (fun (acc : Bool × List Nat) c =>
              add_non_ancestor_neighbor c acc.1 acc.2 nan)
            (false, nb0)
          let nan1 := assoc_update nan parent nb1
          some (nan1, if changed then stack ++ [parent] else stack)
      | _, _ => none

/-- Fold `process_ancestor_parent` over a list of parents. -/
def process_ancestor_parents (S : set_reasoning) (parents : List Nat)
    (nan : List (Nat × List Nat)) (stack : List Nat) :
    Option (List (Nat × List Nat) × List Nat) :=
  parents.foldl
    (fun acc p =>
      match acc with
      | none => none
      | some (nan1, stack1) => process_ancestor_parent S p nan1 stack1)
    (some (nan, stack))

/-- The neighborhood fixpoint loop (lines 1118-1131). -/
def ancestor_fixpoint_loop (fuel : Nat) (S : set_reasoning)
    (stack : List Nat) (nan : List (Nat × List Nat)) :
    Option (List (Nat × List Nat)) :=
  match fuel with
  | 0 => none
  | fuel + 1 =>
    match stack.getLast? with
    | none => some nan
    | some current =>
        let stack1 := stack.dropLast
        match assoc_find S.extensional_graph current,
              assoc_find S.intensional_graph current with
        | some ev, some iv =>
            (match process_ancestor_parents S (ev.parents ++ iv.parents) nan stack1 with
            | none => none
            | some (nan1, stack2) => ancestor_fixpoint_loop fuel S stack2 nan1)
        | _, _ => none
termination_by structural fuel

/-- The initial-state loop over the ancestors (lines 1141-1168): process
    each ancestor's initial state, accumulating the queue and the best
    completed clique (`best` carries clique, ancestor and score). -/
def ancestor_initial_states (fuel : Nat) (minPriority : Option Int)
    (S : set_reasoning) (set : Nat) (entries : List (Nat × List Nat))
    (queue : List search_entry) (best : Option (List Nat × Nat × Int)) :
    Option (List search_entry × Option (List Nat × Nat × Int)) :=
  match fuel with
  | 0 => none
  | fuel + 1 =>
    match entries with
    | [] => some (queue, best)
    | (a, n) :: rest =>
        match assoc_find S.sets a, assoc_find S.sets set with
        | some ainfo, some sinfo =>
            (match process_clique_search_state fuel false true minPriority S
                ⟨[], n, [], set, 0⟩ (ainfo.set_size : Int) (some a) with
            | none => none
            | some (pushes, completed) =>
                let queue1 := pushes.foldl queue_insert queue
                let best1 :=
                  match completed with
                  | some c =>
                      some (c, a, (sinfo.set_size : Int) - (ainfo.set_size : Int))
                  | none => best
                ancestor_initial_states fuel minPriority S set rest queue1 best1)
        | _, _ => none
termination_by structural fuel

/-- The main loop of `find_largest_disjoint_clique_with_set` (lines
    1171-1191): pop while the queue's best priority beats the best completed
    score. -/
def with_set_loop (fuel : Nat) (minPriority : Option Int) (S : set_reasoning)
    (queue : List search_entry) (best : Option (List Nat × Nat × Int)) :
    Option (Option (List Nat × Nat)) :=
  match fuel with
  | 0 => none
  | fuel + 1 =>
    match queue.getLast? with
    | none => some (best.map (fun b => (b.1, b.2.1)))
    | some e =>
        if (match best with
            | none => false
            | some b => decide (e.st.priority ≤ b.2.2)) then
          some (best.map (fun b => (b.1, b.2.1)))
        else
          match e.ancestor with
          | none => none
          | some anc =>
              match assoc_find S.sets anc with
              | none => none
              | some ainfo =>
                  match process_clique_search_state fuel true true minPriority S
                      e.st (ainfo.set_size : Int) (some anc) with
                  | none => none
                  | some (pushes, completed) =>
                      let queue1 := pushes.foldl queue_insert queue.dropLast
                      let best1 :=
                        match completed with
                        | some c =>
                            (match best with
                            | none => some (c, anc, e.st.priority)
                            | some b =>
                                if e.st.priority > b.2.2 then some (c, anc, e.st.priority)
                                else some b)
                        | none => best
                      with_set_loop fuel minPriority S queue1 best1
termination_by structural fuel

/-- `find_largest_disjoint_clique_with_set<MinPriority>` (lines 1056-1195);
    `parents` is the expansion of the `SetParents` policy (the ext+int
    parents of `set` for `default_parents`, a single vertex for
    `singleton_parent`).  The inner `none` is the `NULL` clique. -/
def find_largest_disjoint_clique_with_set (fuel : Nat) (S : set_reasoning)
    (set : Nat) (parents : List Nat) (minPriority : Option Int) :
    Option (Option (List Nat × Nat)) :=
  match collect_ancestors_loop fuel S parents [(set, [])] with
  | none => none
  | some nan1 =>
      match process_ancestor_parents S parents nan1 [] with
      | none => none
      | some (nan2, stack2) =>
          match ancestor_fixpoint_loop fuel S stack2 nan2 with
          | none => none
          | some nan3 =>
              let nan4 := nan3.filter (fun e => e.1 ≠ set)
              match ancestor_initial_states fuel minPriority S set nan4 [] none with
              | none => none
              | some (queue, best) => with_set_loop fuel minPriority S queue best

/-- `default_parents::for_each_parent` (lines 1025-1040). -/
def default_parents (S : set_reasoning) (set : Nat) : Option (List Nat) :=
  match assoc_find S.extensional_graph set, assoc_find S.intensional_graph set with
  | some ev, some iv => some (ev.parents ++ iv.parents)
  | _, _ => none

/-- `set_reasoning::get_size_lower_bound(set_id, lower_bound)` (lines
    564-579): the size of the largest disjoint clique of descendants, 0 when
    there is none. -/
def get_size_lower_bound (fuel : Nat) (S : set_reasoning) (set_id : Nat) :
    Option Nat :=
  match find_largest_disjoint_subset_clique fuel S set_id with
  | none => none
  | some none => some 0
  | some (some c) =>
      match sum_sizes S c with
      | some s => some s.toNat
      | none => none

/-- `set_reasoning::get_size_upper_bound(set_id, upper_bound)` (lines
    581-599): `UINT_MAX` when no clique exists, otherwise the ancestor's
    size minus the other clique members' sizes (unsigned arithmetic, hence
    the wrap modulo 2^32). -/
def get_size_upper_bound (fuel : Nat) (S : set_reasoning) (set_id : Nat) :
    Option Nat :=
  match default_parents S set_id with
  | none => none
  | some parents =>
      match find_largest_disjoint_clique_with_set fuel S set_id parents none with
      | none => none
      | some none => some 4294967295
      | some (some (c, anc)) =>
          let idx := c.indexOf set_id
          if idx = c.length then none
          else
            match assoc_find S.sets anc, sum_sizes S (swap_remove c idx) with
            | some ainfo, some s =>
                some ((((ainfo.set_size : Int) - s) % (4294967296 : Int)).toNat)
            | _, _ => none

/-! ## The claims -/

/-- C1: the spec claims `canonicalize` is idempotent
    (`canonicalize(canonicalize(t)) = canonicalize(t)` structurally).  It is
    not: on `And(f₂(x₁), f₁(x₂))` canonicalization sorts the conjuncts but
    numbers variables by first *traversal* occurrence, so the first pass
    yields `And(f₁(x₂), f₂(x₁))` and a second pass renumbers the variables
    the other way round, giving `And(f₁(x₁), f₂(x₂))` — a different term. -/
theorem C1_canonicalize_not_idempotent :
    canonicalize 10 false false
        (.and [.app1 (.const 2) (.var 1), .app1 (.const 1) (.var 2)]) =
      some (.and [.app1 (.const 1) (.var 2), .app1 (.const 2) (.var 1)]) ∧
    canonicalize 10 false false
        (.and [.app1 (.const 1) (.var 2), .app1 (.const 2) (.var 1)]) =
      some (.and [.app1 (.const 1) (.var 1), .app1 (.const 2) (.var 2)]) ∧
    (hol_term.and [.app1 (.const 1) (.var 1), .app1 (.const 2) (.var 2)]) ≠
      (hol_term.and [.app1 (.const 1) (.var 2), .app1 (.const 2) (.var 1)]) :=
  ⟨by rfl, by rfl, by decide⟩

/-- C2: the spec claims that with `A` an `And` and `B` not an `And`,
    `is_subset(A, B)` treats `B` as a singleton conjunction: true when `B` is
    equal to or implied by some conjunct of `A`.  Here `B = Or(c₂, c₃)` is
    implied by the conjunct `c₂` of `A = And(c₁, c₂)` (second conjunct
    below), yet `is_subset(A, B)` is false: the `continue` in
    `is_conjunction_subset`'s inner loop skips to the next conjunct of `A`
    instead of the next operand of `B`, so the implied-by branch can never
    succeed. -/
theorem C2_is_subset_conjunction_rule_violated :
    is_subset 30 (.and [.const 1, .const 2]) (.or [.const 2, .const 3]) = some false ∧
    is_subset 30 (.const 2) (.or [.const 2, .const 3]) = some true ∧
    is_subset 30 (.const 1) (.or [.const 2, .const 3]) = some false :=
  ⟨by rfl, by rfl, by rfl⟩

/-- C3: the spec says `DISJUNCTION_ELIMINATION` emits `F₁` (the common
    conclusion of the two case subproofs).  The code assigns
    `out.formula = operand_states[0]->formula`, i.e. the disjunction `F₀`
    itself: with `F₀ = Or(c₁, c₂)` and `F₁ = F₂ = c₃` the step succeeds and
    concludes `Or(c₁, c₂) ≠ c₃`. -/
theorem C3_disjunction_elimination_emits_F0 :
    check_proof
        (.disj_elim (.ax (.or [.const 1, .const 2])) (.ax (.const 1)) (.ax (.const 2)))
        [⟨[], some (.or [.const 1, .const 2])⟩,
         ⟨[.const 1], some (.const 3)⟩,
         ⟨[.const 2], some (.const 3)⟩] =
      some ⟨[], some (.or [.const 1, .const 2])⟩ ∧
    (hol_term.or [.const 1, .const 2]) ≠ hol_term.const 3 :=
  ⟨by rfl, by decide⟩

/-- C4: the spec says `BICONDITIONAL_INTRODUCTION` succeeds exactly on
    cross-matched implications (`F₀ = a ⇒ b`, `F₁ = b ⇒ a`) and emits the
    biconditional over the shared pair.  The condition at lines 447-448 uses
    `==` where `!=` is needed, so the checker REJECTS the cross-matched pair
    and ACCEPTS a mismatched pair; moreover the conclusion it then emits is
    `Formula::new_iff(a, b)`, which (via `new_equals_helper`) is the `EQUALS`
    term `a = b` rather than a biconditional. -/
theorem C4_biconditional_introduction_inverted :
    check_proof
        (.bicond_intro (.ax (.if_then (.const 1) (.const 2)))
          (.ax (.if_then (.const 2) (.const 1))))
        [⟨[], some (.if_then (.const 1) (.const 2))⟩,
         ⟨[], some (.if_then (.const 2) (.const 1))⟩] = none ∧
    check_proof
        (.bicond_intro (.ax (.if_then (.const 1) (.const 2)))
          (.ax (.if_then (.const 3) (.const 4))))
        [⟨[], some (.if_then (.const 1) (.const 2))⟩,
         ⟨[], some (.if_then (.const 3) (.const 4))⟩] =
      some ⟨[], some (.equals (.const 1) (.const 2))⟩ :=
  ⟨by rfl, by rfl⟩

/-- C9: the claim says `nd_step::has_subproofs()` returns `false` for EVERY
    step variant.  Not quite: the switch omits `PARAMETER`, so a parameter
    step falls through to `exit(EXIT_FAILURE)` (modelled `none`); every other
    variant — including every inference variant with operand subproofs — does
    return `false`.  Hence `compute_in_degrees` pops the root, skips it as a
    leaf, and returns the empty in-degree map for every non-`PARAMETER` root,
    and aborts on a `PARAMETER` root. -/
theorem C9_has_subproofs_false_except_parameter :
    (∀ s : nd_step, s.has_subproofs = none ↔ ∃ q, s = nd_step.par q) ∧
    (∀ s : nd_step, (∀ q, s ≠ nd_step.par q) → s.has_subproofs = some false) ∧
    (∀ (p : nd_step) (fuel : Nat), (∀ q, p ≠ nd_step.par q) →
      compute_in_degrees (fuel + 2) p = some []) ∧
    (∀ (q fuel : Nat), compute_in_degrees (fuel + 2) (nd_step.par q) = none) :=
  ⟨fun s => by cases s <;> simp [nd_step.has_subproofs],
   fun s h => by cases s <;> first | rfl | exact absurd rfl (h _),
   fun p fuel h => by
    have hs : p.has_subproofs = some false := by
      cases p <;> first | rfl | exact absurd rfl (h _)
    simp [compute_in_degrees, compute_in_degrees_loop, hs],
   fun q fuel => by
    simp [compute_in_degrees, compute_in_degrees_loop, nd_step.has_subproofs]⟩

/-- C9 counterexample: a `PARAMETER` step does not return `false` from
    `has_subproofs` — the program aborts instead (`none`), and
    `compute_in_degrees` aborts with it — while e.g. an `AXIOM` root does
    return `false` and yields the empty in-degree map. -/
theorem C9_parameter_counterexample :
    nd_step.has_subproofs (nd_step.par 0) = none ∧
    compute_in_degrees 2 (nd_step.par 0) = none ∧
    nd_step.has_subproofs (nd_step.ax hol_term.tru) = some false ∧
    compute_in_degrees 2 (nd_step.ax hol_term.tru) = some [] :=
  ⟨rfl, rfl, rfl, rfl⟩

/-- A small `set_reasoning` state for instantiating the set-lattice claims:
    the pre-created empty set ⊥ (id 1, size 0, fixed), a set `p = {x : c₂}`
    (id 2, size 5) with the extensional subset edge `p ⊇ q`, and
    `q = {x : c₃}` (id 3, size 3). -/
def S5c : set_reasoning :=
  { extensional_graph := [(1, ⟨[], []⟩), (2, ⟨[], [3]⟩), (3, ⟨[2], []⟩)],
    intensional_graph := [(1, ⟨[], []⟩), (2, ⟨[], []⟩), (3, ⟨[], []⟩)],
    sets := [(1, ⟨0, true, .fls⟩), (2, ⟨5, false, .const 2⟩), (3, ⟨3, false, .const 3⟩)],
    set_ids := [(.fls, 1), (.const 2, 2), (.const 3, 3)] }

/-- C5: the spec claims `set_size(formula, n)` aborts with a bound-violation
    error when `n` is outside `[lower, upper]`.  It does not: the function
    (whose `NOTE` says the caller is assumed to respect the bounds) looks the
    set up and stores `n` unconditionally, never calling
    `get_size_lower_bound`/`get_size_upper_bound`.  Amended accordingly:
    for every registered set, `set_size` succeeds and overwrites the stored
    size with `n`, bounds notwithstanding. -/
theorem C5_set_size_updates_unconditionally
    (S : set_reasoning) (f : hol_term) (n id : Nat) (info : set_info)
    (h1 : get_set_id S f = some id) (h2 : assoc_find S.sets id = some info) :
    set_size S f n =
      some { S with sets := assoc_update S.sets id { info with set_size := n } } := by
  simp only [set_size, h1, h2]

/-- Witness for C5 at the concrete state `S5c`. -/
theorem C5_set_size_witness :
    set_size S5c (.const 2) 1 =
      some { S5c with
        sets := assoc_update S5c.sets 2 { (⟨5, false, .const 2⟩ : set_info) with set_size := 1 } } :=
  C5_set_size_updates_unconditionally S5c (.const 2) 1 2 ⟨5, false, .const 2⟩ rfl rfl

/-- Counterexample to C5 as stated: in `S5c` the bounds of set 2 are
    `[3, UINT_MAX]` (the lower bound from the disjoint subset clique `{q}`
    of size 3), yet `set_size` accepts the out-of-bounds size 1 and stores
    it. -/
theorem C5_bound_violation_not_detected :
    get_size_lower_bound 50 S5c 2 = some 3 ∧
    get_size_upper_bound 50 S5c 2 = some 4294967295 ∧
    (1 : Nat) < 3 ∧
    set_size S5c (.const 2) 1 =
      some { S5c with
        sets := [(1, ⟨0, true, .fls⟩), (2, ⟨1, false, .const 2⟩), (3, ⟨3, false, .const 3⟩)] } :=
  ⟨by rfl, by rfl, by decide, by rfl⟩

/-- The state for C6: set 2 (`{x : c₁}`) has stored size 0 but is NOT the
    pre-created empty-set vertex (its formula is not ⊥ and its size is not
    fixed). -/
def S6c : set_reasoning :=
  { extensional_graph := [(1, ⟨[], []⟩), (2, ⟨[], []⟩)],
    intensional_graph := [(1, ⟨[], []⟩), (2, ⟨[], []⟩)],
    sets := [(1, ⟨0, true, .fls⟩), (2, ⟨0, false, .const 1⟩)],
    set_ids := [(.fls, 1), (.const 1, 2)] }

/-- C6: `are_disjoint(u, v)` tests only that the canonical conjunction of the
    two set formulas is registered and that the registered set's STORED size
    is 0 — it never checks `fixed_set_size` or identity with the pre-created
    empty-set vertex.  Amended accordingly (the ⊥ case is the instance where
    the conjunction canonicalizes to `FALSE`, which the constructor registers
    with size 0). -/
theorem C6_are_disjoint_iff_registered_size_zero
    (fuel : Nat) (S : set_reasoning) (i j : Nat) (ii ji : set_info)
    (inter : hol_term)
    (hi : assoc_find S.sets i = some ii) (hj : assoc_find S.sets j = some ji)
    (hint : intersect fuel ii.set_formula ji.set_formula = some inter) :
    are_disjoint fuel S i j = some true ↔
      ∃ info, assoc_find S.set_ids inter ≠ none ∧
        assoc_find S.sets ((assoc_find S.set_ids inter).getD 0) = some info ∧
        info.set_size = 0 := by
  simp only [are_disjoint, hi, hj, hint]
  cases h : assoc_find S.set_ids inter with
  | none => simp
  | some id =>
      cases h2 : assoc_find S.sets id with
      | none => simp [h2]
      | some info =>
          simp only [h2, Option.getD_some, ne_eq, reduceCtorEq, not_false_eq_true,
            true_and, Option.some.injEq, beq_iff_eq]
          constructor
          · intro he
            exact ⟨info, rfl, he⟩
          · rintro ⟨info2, hinfo, hsz⟩
            subst hinfo
            exact hsz

/-- Witness for C6 at `S6c`: the conjunction `c₁ ∧ c₁` canonicalizes back to
    `c₁`, which is registered as set 2 with stored size 0. -/
theorem C6_are_disjoint_witness :
    are_disjoint 20 S6c 2 2 = some true ↔
      ∃ info, assoc_find S6c.set_ids (.const 1) ≠ none ∧
        assoc_find S6c.sets ((assoc_find S6c.set_ids (.const 1)).getD 0) = some info ∧
        info.set_size = 0 :=
  C6_are_disjoint_iff_registered_size_zero 20 S6c 2 2
    ⟨0, false, .const 1⟩ ⟨0, false, .const 1⟩ (.const 1) rfl rfl (by rfl)

/-- Counterexample to C6 as stated: in `S6c`, `are_disjoint(2, 2)` is true,
    although the canonical intersection `c₁` is not ⊥ and maps to a vertex
    whose size is not fixed — not the pre-created empty-set vertex. -/
theorem C6_counterexample :
    are_disjoint 20 S6c 2 2 = some true ∧
    intersect 20 (.const 1) (.const 1) = some (.const 1) ∧
    (hol_term.const 1) ≠ hol_term.fls ∧
    assoc_find S6c.sets 2 = some ⟨0, false, .const 1⟩ ∧
    (⟨0, false, .const 1⟩ : set_info).fixed_set_size = false :=
  ⟨by rfl, by rfl, by decide, by rfl, by rfl⟩

/-- `assoc_find` misses a key its list was just filtered against. -/
theorem assoc_find_filter_ne {β : Type} (l : List (Nat × β)) (id : Nat) :
    assoc_find (l.filter (fun e => e.1 ≠ id)) id = none := by
  induction l with
  | nil => rfl
  | cons h t ih =>
      by_cases he : h.1 = id
      · simpa [List.filter_cons, he] using ih
      · simpa [List.filter_cons, he, assoc_find, List.find?] using ih

/-- The `sets` map of a freed set: `free_set` drops exactly the freed id. -/
theorem free_set_formula_sets (fuel : Nat) (S : set_reasoning) (g : hol_term)
    (i : Nat) (S2 : set_reasoning) (h : free_set_formula fuel S g i = some S2) :
    S2.sets = S.sets.filter (fun e => e.1 ≠ i) := by
  unfold free_set_formula free_set at h
  cases hv : assoc_find S.intensional_graph i with
  | none => simp [hv] at h
  | some intv =>
  simp only [hv] at h
  cases hg1 : graph_free_set true S.intensional_graph i with
  | none => simp [hg1] at h
  | some g1 =>
  simp only [hg1] at h
  cases hg2 : graph_free_set true S.extensional_graph i with
  | none => simp [hg2] at h
  | some e1 =>
  simp only [hg2] at h
  cases hg3 : free_set_bypass fuel g1 intv.parents intv.children with
  | none => simp [hg3] at h
  | some g2 =>
  simp only [hg3] at h
  cases hg4 : assoc_find S.set_ids g with
  | none => simp [hg4] at h
  | some w =>
  simp only [hg4, Option.some.injEq] at h
  rw [← h]

/-- The state for C10: two registered sets with fixed sizes and no
    extensional edges. -/
def S10c : set_reasoning :=
  { extensional_graph := [(1, ⟨[], []⟩), (2, ⟨[], []⟩)],
    intensional_graph := [(1, ⟨[], []⟩), (2, ⟨[], []⟩)],
    sets := [(1, ⟨0, true, .fls⟩), (2, ⟨4, true, .const 1⟩)],
    set_ids := [(.fls, 1), (.const 1, 2)] }

/-- C10: the extensional graph acquires no self-loops.  When the antecedent
    and consequent formulas map to the same set id, `add_subset_relation`
    adds no edge and returns true with the state unchanged, and
    `remove_subset_relation`, when it returns at all, returns the state
    unchanged (it removes an edge only when the two ids differ). -/
theorem C10_no_extensional_self_loops :
    (∀ (S : set_reasoning) (f g : hol_term) (i : Nat),
        get_set_id S f = some i → get_set_id S g = some i →
        add_subset_relation S f g = some (true, S)) ∧
    (∀ (fuel : Nat) (S S' : set_reasoning) (f g : hol_term) (i : Nat),
        get_set_id S f = some i → get_set_id S g = some i →
        remove_subset_relation fuel S f g = some S' → S' = S) := by
  constructor
  · intro S f g i h1 h2
    simp [add_subset_relation, h1, h2]
  · intro fuel S S' f g i h1 h2 hr
    simp only [remove_subset_relation, h1, h2, ne_eq, not_true_eq_false,
      ite_false, reduceIte] at hr
    cases hf : is_freeable S i with
    | none => simp only [hf] at hr; exact absurd hr (by simp)
    | some fc =>
    simp only [hf] at hr
    cases fc with
    | false =>
        simp only [Bool.false_eq_true, reduceIte, hf, Option.some.injEq] at hr
        exact hr.symm
    | true =>
        simp only [reduceIte] at hr
        cases hfs : free_set_formula fuel S g i with
        | none => simp only [hfs] at hr; exact absurd hr (by simp)
        | some S2 =>
        simp only [hfs] at hr
        have hnone : is_freeable S2 i = none := by
          unfold is_freeable
          rw [free_set_formula_sets fuel S g i S2 hfs, assoc_find_filter_ne]
        rw [hnone] at hr
        exact absurd hr (by simp)

/-- Witness for C10 at `S10c`: adding and removing the self subset relation
    `{x : c₁} ⊆ {x : c₁}` leaves the state unchanged. -/
theorem C10_self_loop_witness :
    add_subset_relation S10c (.const 1) (.const 1) = some (true, S10c) ∧
    (remove_subset_relation 20 S10c (.const 1) (.const 1) = some S10c → S10c = S10c) :=
  ⟨C10_no_extensional_self_loops.1 S10c (.const 1) (.const 1) 2 rfl rfl,
   C10_no_extensional_self_loops.2 20 S10c S10c (.const 1) (.const 1) 2 rfl rfl⟩

/-- C7: canonicalization hoists the quantifier-free part.
    `promote_from_quantifier_scope` keeps exactly the operands whose cached
    variable list mentions the bound variable and moves every other operand
    (with its variables shifted past the bound one) into the enclosing
    scope, in order; and the canonical form of `![X5]: (c₁ ∧ c₂(X5))` is
    `And(c₁, ∀X1. c₂(X1))`. -/
theorem C7_quantifier_hoisting :
    (∀ (ops dst : List hol_scope) (qv : Nat),
        promote_from_quantifier_scope ops dst qv =
          (ops.filter (fun c => c.svars.contains qv),
           dst ++ (ops.filter (fun c => ! c.svars.contains qv)).map
             (fun c => shift_variables c qv))) ∧
    canonicalize 10 false false
        (.for_all 5 (.and [.const 1, .app1 (.const 2) (.var 5)])) =
      some (.and [.const 1, .for_all 1 (.app1 (.const 2) (.var 1))]) := by
  constructor
  · intro ops
    induction ops with
    | nil => intro dst qv; simp [promote_from_quantifier_scope]
    | cons c rest ih =>
        intro dst qv
        by_cases hm : qv ∈ c.svars
        · simp [promote_from_quantifier_scope, List.filter_cons, hm, ih]
        · simp [promote_from_quantifier_scope, List.filter_cons, hm, ih]
  · rfl

/-! #### C8: cycle behaviour of the final flatten pass -/

/-- A chain of trivial type-variable aliases: starting at `v`, each listed
    variable refers to the next, and the last refers to `v0`. -/
def alias_chain (tvs : List hol_type) : Nat → List Nat → Nat → Prop
  | v, [], v0 => tvs.get? v = some (.tvar v0)
  | v, w :: ws, v0 => tvs.get? v = some (.tvar w) ∧ alias_chain tvs w ws v0

/-- A chain of trivial aliases whose last member's value is a function type
    whose left child refers back to `v0`. -/
def func_chain (tvs : List hol_type) : Nat → List Nat → Nat → hol_type → Prop
  | v, [], v0, rT => tvs.get? v = some (.function (.tvar v0) rT)
  | v, w :: ws, v0, rT => tvs.get? v = some (.tvar w) ∧ func_chain tvs w ws v0 rT

theorem get?_some_lt {α : Type} (l : List α) (n : Nat) (x : α)
    (h : l.get? n = some x) : n < l.length := by
  by_contra hn
  rw [List.get?_eq_none.mpr (by omega)] at h
  exact absurd h (by simp)

theorem get_of_get? {α : Type} (l : List α) (n : Nat) (x : α)
    (hn : n < l.length) (h : l.get? n = some x) : l.get ⟨n, hn⟩ = x := by
  rw [List.get?_eq_get hn] at h
  exact Option.some.inj h

theorem get?_set {α : Type} (l : List α) (i j : Nat) (x : α) :
    (l.set i x).get? j = if i = j ∧ i < l.length then some x else l.get? j := by
  induction l generalizing i j with
  | nil => simp
  | cons a t ih =>
      cases i with
      | zero => cases j <;> simp
      | succ i2 =>
          cases j with
          | zero => simp
          | succ j2 =>
              simp only [List.set, List.get?, ih, List.length_cons]
              by_cases hij : i2 = j2 ∧ i2 < t.length
              · rw [if_pos hij, if_pos ⟨by omega, by omega⟩]
              · rw [if_neg hij, if_neg (fun hc => hij ⟨by omega, by omega⟩)]

/-- `scan_visited` returns `none` when the sought variable is absent. -/
theorem scan_visited_not_mem (v : Nat) (l : List (Nat × Bool)) (t : Bool)
    (acc : List Nat) (h : ∀ p ∈ l, p.1 ≠ v) :
    scan_visited v l t acc = none := by
  induction l generalizing t acc with
  | nil => rfl
  | cons p rest ih =>
      obtain ⟨k, b⟩ := p
      have hk : k ≠ v := h (k, b) (by simp)
      simp only [scan_visited, if_neg hk]
      exact ih _ _ (fun q hq => h q (by simp [hq]))

/-- `scan_visited` with an all-true prefix finds the variable with the
    `trivial` flag intact; the collapsed keys are the sought variable, the
    prefix's keys and the accumulator. -/
theorem scan_visited_found (v : Nat) (l1 l2 : List (Nat × Bool)) (b : Bool)
    (hmiss : ∀ p ∈ l1, p.1 ≠ v) (hflags : ∀ p ∈ l1, p.2 = true) :
    ∀ acc : List Nat,
      ∃ ks, scan_visited v (l1 ++ (v, b) :: l2) true acc = some (true, ks) ∧
        ∀ x, x ∈ ks ↔ (x = v ∨ (∃ p ∈ l1, p.1 = x) ∨ x ∈ acc) := by
  induction l1 with
  | nil =>
      intro acc
      refine ⟨v :: acc, by simp [scan_visited], ?_⟩
      intro x; simp [eq_comm]
  | cons p rest ih =>
      intro acc
      obtain ⟨k, bb⟩ := p
      have hk : k ≠ v := hmiss (k, bb) (by simp)
      have hb : bb = true := hflags (k, bb) (by simp)
      subst hb
      simp only [List.cons_append, scan_visited, if_neg hk, Bool.and_true]
      obtain ⟨ks, hks, hmem⟩ := ih (fun q hq => hmiss q (by simp [hq]))
        (fun q hq => hflags q (by simp [hq])) (k :: acc)
      refine ⟨ks, hks, fun x => ?_⟩
      rw [hmem x]
      constructor
      · rintro (rfl | ⟨p, hp, rfl⟩ | hx)
        · exact Or.inl rfl
        · exact Or.inr (Or.inl ⟨p, by simp [hp], rfl⟩)
        · rcases List.mem_cons.mp hx with rfl | hx2
          · exact Or.inr (Or.inl ⟨(x, true), by simp, rfl⟩)
          · exact Or.inr (Or.inr hx2)
      · rintro (rfl | ⟨p, hp, rfl⟩ | hx)
        · exact Or.inl rfl
        · rcases List.mem_cons.mp hp with rfl | hp2
          · exact Or.inr (Or.inr (by simp))
          · exact Or.inr (Or.inl ⟨p, hp2, rfl⟩)
        · exact Or.inr (Or.inr (by simp [hx]))

/-- `scan_visited` started with `trivial = false` (a reference from inside a
    function constructor) reports a non-trivial cycle. -/
theorem scan_visited_found_false (v : Nat) (l1 l2 : List (Nat × Bool)) (b : Bool)
    (hmiss : ∀ p ∈ l1, p.1 ≠ v) :
    ∀ acc : List Nat,
      ∃ ks, scan_visited v (l1 ++ (v, b) :: l2) false acc = some (false, ks) := by
  induction l1 with
  | nil => exact fun acc => ⟨v :: acc, by simp [scan_visited]⟩
  | cons p rest ih =>
      intro acc
      obtain ⟨k, bb⟩ := p
      have hk : k ≠ v := hmiss (k, bb) (by simp)
      simp only [List.cons_append, scan_visited, if_neg hk, Bool.false_and]
      exact ih (fun q hq => hmiss q (by simp [hq])) (k :: acc)

/-- Setting every key in `ks` to `ANY`. -/
theorem foldl_set_any_length (ks : List Nat) (tvs : List hol_type) :
    (ks.foldl (fun a k => a.set k hol_type.any) tvs).length = tvs.length := by
  induction ks generalizing tvs with
  | nil => rfl
  | cons k rest ih => simp [List.foldl_cons, ih]

theorem foldl_set_any_get (ks : List Nat) (tvs : List hol_type) (w : Nat) :
    (ks.foldl (fun a k => a.set k hol_type.any) tvs).get? w =
      if w ∈ ks ∧ w < tvs.length then some .any else tvs.get? w := by
  induction ks generalizing tvs with
  | nil => simp
  | cons k rest ih =>
      simp only [List.foldl_cons, ih, List.length_set, get?_set]
      by_cases hw : w ∈ rest ∧ w < tvs.length
      · rw [if_pos hw, if_pos ⟨by simp [hw.1], hw.2⟩]
      · rw [if_neg hw]
        by_cases hk : k = w ∧ k < tvs.length
        · rw [if_pos hk, if_pos ⟨by simp [hk.1], hk.1 ▸ hk.2⟩]
        · rw [if_neg hk, if_neg (by
            rintro ⟨hmem, hlt⟩
            rcases List.mem_cons.mp hmem with rfl | hr
            · exact hk ⟨rfl, hlt⟩
            · exact hw ⟨hr, hlt⟩)]

theorem flatten_alias_cycle_aux (v0 : Nat) :
    ∀ (rest : List Nat) (fuel : Nat) (v : Nat) (mid : List (Nat × Bool))
      (tvs : List hol_type),
      2 * rest.length + 4 ≤ fuel →
      (∀ p ∈ mid, p.2 = true) →
      alias_chain tvs v rest v0 →
      v ≠ v0 → (∀ p ∈ mid, p.1 ≠ v) → (∀ p ∈ mid, p.1 ≠ v0) →
      v ∉ rest → v0 ∉ rest → rest.Nodup →
      (∀ r ∈ rest, ∀ p ∈ mid, p.1 ≠ r) →
      (∀ p ∈ mid, p.1 < tvs.length) →
      v0 < tvs.length →
      ∃ tvs2,
        flatten_type_variable_var fuel true v ((v0, true) :: mid) tvs =
          some (.any, tvs2) ∧
        tvs2.length = tvs.length ∧
        (∀ w, (w = v0 ∨ (∃ p ∈ mid, p.1 = w) ∨ w = v ∨ w ∈ rest) →
          tvs2.get? w = some .any) ∧
        (∀ w, ¬(w = v0 ∨ (∃ p ∈ mid, p.1 = w) ∨ w = v ∨ w ∈ rest) →
          tvs2.get? w = tvs.get? w) := by
  intro rest
  induction rest with
  | nil =>
      intro fuel v mid tvs hfuel hflags hchain hvv0 hmidv hmidv0 _ _ _ _ hmidlt hv0lt
      obtain ⟨f1, rfl⟩ : ∃ f1, fuel = f1 + 1 := ⟨fuel - 1, by omega⟩
      have hvlt : v < tvs.length := get?_some_lt _ _ _ hchain
      have hscan : scan_visited v (mid.reverse ++ [(v0, true)]) true [] = none := by
        apply scan_visited_not_mem
        intro p hp
        rw [List.mem_append, List.mem_reverse] at hp
        rcases hp with hpm | hpv
        · exact hmidv p hpm
        · simp only [List.mem_singleton] at hpv
          subst hpv
          exact fun hc => hvv0 hc.symm
      obtain ⟨f2, rfl⟩ : ∃ f2, f1 = f2 + 1 := ⟨f1 - 1, by omega⟩
      obtain ⟨f3, rfl⟩ : ∃ f3, f2 = f3 + 1 := ⟨f2 - 1, by omega⟩
      have hget : tvs.get ⟨v, hvlt⟩ = .tvar v0 := get_of_get? _ _ _ hvlt hchain
      obtain ⟨ks, hks, hmem⟩ :=
        scan_visited_found v0 ((mid ++ [(v, true)]).reverse) [] true
          (by
            intro p hp
            rw [List.mem_reverse, List.mem_append] at hp
            rcases hp with hpm | hpv
            · exact hmidv0 p hpm
            · simp only [List.mem_singleton] at hpv
              subst hpv
              exact hvv0)
          (by
            intro p hp
            rw [List.mem_reverse, List.mem_append] at hp
            rcases hp with hpm | hpv
            · exact hflags p hpm
            · simp only [List.mem_singleton] at hpv
              subst hpv
              rfl)
          []
      have hkmem : ∀ x, x ∈ ks ↔ (x = v0 ∨ (∃ p ∈ mid, p.1 = x) ∨ x = v) := by
        intro x
        rw [hmem x]
        constructor
        · rintro (rfl | ⟨p, hp, rfl⟩ | hx)
          · exact Or.inl rfl
          · rw [List.mem_reverse, List.mem_append] at hp
            rcases hp with hpm | hpv
            · exact Or.inr (Or.inl ⟨p, hpm, rfl⟩)
            · simp only [List.mem_singleton] at hpv
              subst hpv
              exact Or.inr (Or.inr rfl)
          · exact absurd hx (by simp)
        · rintro (rfl | ⟨p, hp, rfl⟩ | rfl)
          · exact Or.inl rfl
          · refine Or.inr (Or.inl ⟨p, ?_, rfl⟩)
            rw [List.mem_reverse, List.mem_append]
            exact Or.inl hp
          · refine Or.inr (Or.inl ⟨(x, true), ?_, rfl⟩)
            rw [List.mem_reverse, List.mem_append]
            simp
      have hlen1 : (ks.foldl (fun a k => a.set k hol_type.any) tvs).length =
          tvs.length := foldl_set_any_length ks tvs
      refine ⟨((ks.foldl (fun a k => a.set k hol_type.any) tvs).set v0
        hol_type.any).set v hol_type.any, ?_, ?_, ?_, ?_⟩
      · simp only [flatten_type_variable_var, List.reverse_cons, hscan, dif_pos hvlt,
          hget, flatten_type_variable, List.cons_append, hks]
      · simp [hlen1]
      · intro w hw
        simp only [get?_set, List.length_set, hlen1]
        rcases hw with rfl | ⟨p, hp, rfl⟩ | rfl | hf
        · rw [if_neg (fun hc => hvv0 hc.1), if_pos ⟨rfl, hv0lt⟩]
        · rw [if_neg (fun hc => hmidv p hp hc.1.symm),
            if_neg (fun hc => hmidv0 p hp hc.1.symm),
            foldl_set_any_get,
            if_pos ⟨(hkmem p.1).mpr (Or.inr (Or.inl ⟨p, hp, rfl⟩)), hmidlt p hp⟩]
        · rw [if_pos ⟨rfl, hvlt⟩]
        · exact absurd hf (by simp)
      · intro w hw
        have h1 : w ≠ v0 := fun hc => hw (Or.inl hc)
        have h2 : ¬ ∃ p ∈ mid, p.1 = w := fun hc => hw (Or.inr (Or.inl hc))
        have h3 : w ≠ v := fun hc => hw (Or.inr (Or.inr (Or.inl hc)))
        simp only [get?_set, List.length_set, hlen1]
        rw [if_neg (fun hc => h3 hc.1.symm), if_neg (fun hc => h1 hc.1.symm),
          foldl_set_any_get,
          if_neg (fun hc => by
            rcases (hkmem w).mp hc.1 with rfl | hm | rfl
            · exact h1 rfl
            · exact h2 hm
            · exact h3 rfl)]
  | cons w2 ws ih =>
      intro fuel v mid tvs hfuel hflags hchain hvv0 hmidv hmidv0 hvrest hv0rest hnodup hrestmid hmidlt hv0lt
      obtain ⟨hstep, hchain2⟩ := hchain
      obtain ⟨f1, rfl⟩ : ∃ f1, fuel = f1 + 1 := ⟨fuel - 1, by omega⟩
      have hvlt : v < tvs.length := get?_some_lt _ _ _ hstep
      have hscan : scan_visited v (mid.reverse ++ [(v0, true)]) true [] = none := by
        apply scan_visited_not_mem
        intro p hp
        rw [List.mem_append, List.mem_reverse] at hp
        rcases hp with hpm | hpv
        · exact hmidv p hpm
        · simp only [List.mem_singleton] at hpv
          subst hpv
          exact fun hc => hvv0 hc.symm
      obtain ⟨f2, rfl⟩ : ∃ f2, f1 = f2 + 1 := ⟨f1 - 1, by omega⟩
      have hget : tvs.get ⟨v, hvlt⟩ = .tvar w2 := get_of_get? _ _ _ hvlt hstep
      have hw2v0 : w2 ≠ v0 := fun hc => hv0rest (by rw [← hc]; exact List.mem_cons_self w2 ws)
      obtain ⟨tvs2, heq, hlen, hany, hunch⟩ :=
        ih f2 w2 (mid ++ [(v, true)]) tvs
          (by simp at hfuel ⊢; omega)
          (by
            intro p hp
            rcases List.mem_append.mp hp with hpm | hpv
            · exact hflags p hpm
            · simp only [List.mem_singleton] at hpv
              subst hpv
              rfl)
          hchain2
          hw2v0
          (by
            intro p hp
            rcases List.mem_append.mp hp with hpm | hpv
            · exact hrestmid w2 (List.mem_cons_self w2 ws) p hpm
            · simp only [List.mem_singleton] at hpv
              subst hpv
              exact fun hc => hvrest (by rw [show v = w2 from hc]; exact List.mem_cons_self w2 ws)
          )
          (by
            intro p hp
            rcases List.mem_append.mp hp with hpm | hpv
            · exact hmidv0 p hpm
            · simp only [List.mem_singleton] at hpv
              subst hpv
              exact hvv0)
          (by
            intro hc
            exact (List.nodup_cons.mp hnodup).1 hc)
          (fun hc => hv0rest (List.mem_cons_of_mem _ hc))
          (List.nodup_cons.mp hnodup).2
          (by
            intro r hr p hp
            rcases List.mem_append.mp hp with hpm | hpv
            · exact hrestmid r (List.mem_cons_of_mem _ hr) p hpm
            · simp only [List.mem_singleton] at hpv
              subst hpv
              exact fun hc => hvrest (List.mem_cons_of_mem _ (by rw [show v = r from hc]; exact hr)))
          (by
            intro p hp
            rcases List.mem_append.mp hp with hpm | hpv
            · exact hmidlt p hpm
            · simp only [List.mem_singleton] at hpv
              subst hpv
              exact hvlt)
          hv0lt
      refine ⟨tvs2.set v hol_type.any, ?_, ?_, ?_, ?_⟩
      · simp only [flatten_type_variable_var, List.reverse_cons, hscan, dif_pos hvlt,
          hget, flatten_type_variable, List.cons_append, heq]
      · simp [hlen]
      · intro w hw
        simp only [get?_set, hlen]
        by_cases hwv : v = w
        · rw [if_pos ⟨hwv, hvlt⟩]
        · rw [if_neg (fun hc => hwv hc.1)]
          apply hany
          rcases hw with rfl | ⟨p, hp, rfl⟩ | rfl | hmem2
          · exact Or.inl rfl
          · exact Or.inr (Or.inl ⟨p, List.mem_append.mpr (Or.inl hp), rfl⟩)
          · exact absurd rfl hwv
          · rcases List.mem_cons.mp hmem2 with rfl | hws
            · exact Or.inr (Or.inr (Or.inl rfl))
            · exact Or.inr (Or.inr (Or.inr hws))
      · intro w hw
        have h3 : w ≠ v := fun hc => hw (Or.inr (Or.inr (Or.inl hc)))
        simp only [get?_set, hlen]
        rw [if_neg (fun hc => h3 hc.1.symm)]
        apply hunch
        rintro (rfl | ⟨p, hp, rfl⟩ | rfl | hws)
        · exact hw (Or.inl rfl)
        · rcases List.mem_append.mp hp with hpm | hpv
          · exact hw (Or.inr (Or.inl ⟨p, hpm, rfl⟩))
          · simp only [List.mem_singleton] at hpv
            subst hpv
            exact h3 rfl
        · exact hw (Or.inr (Or.inr (Or.inr (List.mem_cons_self _ _))))
        · exact hw (Or.inr (Or.inr (Or.inr (List.mem_cons_of_mem _ hws))))

/-- The engine for cycles through a function constructor: the chain ends at a
    variable whose value is a function type referring back to `v0`; the
    `Root = false` recursion into the function's child reports a non-trivial
    cycle and the pass fails. -/
theorem flatten_func_cycle_aux (v0 : Nat) (rT : hol_type) :
    ∀ (rest : List Nat) (fuel : Nat) (v : Nat) (mid : List (Nat × Bool))
      (tvs : List hol_type),
      2 * rest.length + 5 ≤ fuel →
      func_chain tvs v rest v0 rT →
      v ≠ v0 → (∀ p ∈ mid, p.1 ≠ v) → (∀ p ∈ mid, p.1 ≠ v0) →
      v ∉ rest → v0 ∉ rest → rest.Nodup →
      (∀ r ∈ rest, ∀ p ∈ mid, p.1 ≠ r) →
      flatten_type_variable_var fuel true v ((v0, true) :: mid) tvs = none := by
  intro rest
  induction rest with
  | nil =>
      intro fuel v mid tvs hfuel hchain hvv0 hmidv hmidv0 _ _ _ _
      obtain ⟨f1, rfl⟩ : ∃ f1, fuel = f1 + 1 := ⟨fuel - 1, by omega⟩
      have hvlt : v < tvs.length := get?_some_lt _ _ _ hchain
      have hscan : scan_visited v (mid.reverse ++ [(v0, true)]) true [] = none := by
        apply scan_visited_not_mem
        intro p hp
        rw [List.mem_append, List.mem_reverse] at hp
        rcases hp with hpm | hpv
        · exact hmidv p hpm
        · simp only [List.mem_singleton] at hpv
          subst hpv
          exact fun hc => hvv0 hc.symm
      obtain ⟨f2, rfl⟩ : ∃ f2, f1 = f2 + 1 := ⟨f1 - 1, by omega⟩
      obtain ⟨f3, rfl⟩ : ∃ f3, f2 = f3 + 1 := ⟨f2 - 1, by omega⟩
      obtain ⟨f4, rfl⟩ : ∃ f4, f3 = f4 + 1 := ⟨f3 - 1, by omega⟩
      have hget : tvs.get ⟨v, hvlt⟩ = .function (.tvar v0) rT :=
        get_of_get? _ _ _ hvlt hchain
      obtain ⟨ks, hks⟩ :=
        scan_visited_found_false v0 ((mid ++ [(v, true)]).reverse) [] true
          (by
            intro p hp
            rw [List.mem_reverse, List.mem_append] at hp
            rcases hp with hpm | hpv
            · exact hmidv0 p hpm
            · simp only [List.mem_singleton] at hpv
              subst hpv
              exact hvv0)
          []
      simp only [flatten_type_variable_var, List.reverse_cons, hscan,
        dif_pos hvlt, hget, flatten_type_variable, List.cons_append, hks]
  | cons w2 ws ih =>
      intro fuel v mid tvs hfuel hchain hvv0 hmidv hmidv0 hvrest hv0rest hnodup hrestmid
      obtain ⟨hstep, hchain2⟩ := hchain
      obtain ⟨f1, rfl⟩ : ∃ f1, fuel = f1 + 1 := ⟨fuel - 1, by omega⟩
      have hvlt : v < tvs.length := get?_some_lt _ _ _ hstep
      have hscan : scan_visited v (mid.reverse ++ [(v0, true)]) true [] = none := by
        apply scan_visited_not_mem
        intro p hp
        rw [List.mem_append, List.mem_reverse] at hp
        rcases hp with hpm | hpv
        · exact hmidv p hpm
        · simp only [List.mem_singleton] at hpv
          subst hpv
          exact fun hc => hvv0 hc.symm
      obtain ⟨f2, rfl⟩ : ∃ f2, f1 = f2 + 1 := ⟨f1 - 1, by omega⟩
      have hget : tvs.get ⟨v, hvlt⟩ = .tvar w2 := get_of_get? _ _ _ hvlt hstep
      have heq := ih f2 w2 (mid ++ [(v, true)]) tvs
        (by simp at hfuel ⊢; omega)
        hchain2
        (fun hc => hv0rest (by rw [← hc]; exact List.mem_cons_self _ _))
        (by
          intro p hp
          rcases List.mem_append.mp hp with hpm | hpv
          · exact hrestmid w2 (List.mem_cons_self _ _) p hpm
          · simp only [List.mem_singleton] at hpv
            subst hpv
            exact fun hc => hvrest (by rw [show v = w2 from hc]; exact List.mem_cons_self _ _))
        (by
          intro p hp
          rcases List.mem_append.mp hp with hpm | hpv
          · exact hmidv0 p hpm
          · simp only [List.mem_singleton] at hpv
            subst hpv
            exact hvv0)
        (fun hc => (List.nodup_cons.mp hnodup).1 hc)
        (fun hc => hv0rest (List.mem_cons_of_mem _ hc))
        (List.nodup_cons.mp hnodup).2
        (by
          intro r hr p hp
          rcases List.mem_append.mp hp with hpm | hpv
          · exact hrestmid r (List.mem_cons_of_mem _ hr) p hpm
          · simp only [List.mem_singleton] at hpv
            subst hpv
            exact fun hc => hvrest (List.mem_cons_of_mem _ (by rw [show v = r from hc]; exact hr)))
      simp only [flatten_type_variable_var, List.reverse_cons, hscan,
        dif_pos hvlt, hget, flatten_type_variable, List.cons_append, heq]

/-- C8: in the final flatten pass of type inference, a reference cycle made
    only of trivial type-variable aliases collapses every variable on the
    cycle to `ANY` (leaving all other entries untouched), while a cycle whose
    last step passes through to a function constructor referring back to the
    start makes the pass fail with the infinite-type error (`none`). -/
theorem C8_flatten_cycle_behavior :
    (∀ (v0 : Nat) (rest : List Nat) (tvs : List hol_type) (fuel : Nat),
        2 * rest.length + 6 ≤ fuel →
        alias_chain tvs v0 rest v0 →
        v0 ∉ rest → rest.Nodup →
        ∃ tvs2, flatten_type_variable_var fuel true v0 [] tvs = some (.any, tvs2) ∧
          tvs2.length = tvs.length ∧
          (∀ w, w ∈ v0 :: rest → tvs2.get? w = some .any) ∧
          (∀ w, w ∉ v0 :: rest → tvs2.get? w = tvs.get? w)) ∧
    (∀ (v0 : Nat) (rest : List Nat) (tvs : List hol_type) (rT : hol_type) (fuel : Nat),
        2 * rest.length + 7 ≤ fuel →
        func_chain tvs v0 rest v0 rT →
        v0 ∉ rest → rest.Nodup →
        flatten_type_variable_var fuel true v0 [] tvs = none) := by
  constructor
  · intro v0 rest tvs fuel hfuel hchain hv0rest hnodup
    obtain ⟨f1, rfl⟩ : ∃ f1, fuel = f1 + 1 := ⟨fuel - 1, by omega⟩
    cases rest with
    | nil =>
        have hv0lt : v0 < tvs.length := get?_some_lt _ _ _ hchain
        have hget : tvs.get ⟨v0, hv0lt⟩ = .tvar v0 := get_of_get? _ _ _ hv0lt hchain
        obtain ⟨f2, rfl⟩ : ∃ f2, f1 = f2 + 1 := ⟨f1 - 1, by omega⟩
        obtain ⟨f3, rfl⟩ : ∃ f3, f2 = f3 + 1 := ⟨f2 - 1, by omega⟩
        have hs0 : scan_visited v0 (([] : List (Nat × Bool)).reverse) true [] = none := rfl
        have hs2 : scan_visited v0 (([] ++ [(v0, true)] :
            List (Nat × Bool)).reverse) true [] = some (true, [v0]) := by
          simp [scan_visited]
        refine ⟨(((tvs.set v0 hol_type.any).set v0
          hol_type.any).set v0 hol_type.any), ?_, ?_, ?_, ?_⟩
        · simp only [flatten_type_variable_var, hs0, dif_pos hv0lt, hget,
            flatten_type_variable, hs2, List.foldl_cons, List.foldl_nil]
        · simp
        · intro w hw
          simp only [List.mem_cons, List.not_mem_nil, or_false] at hw
          subst hw
          simp [get?_set, List.length_set, hv0lt]
        · intro w hw
          simp only [List.mem_cons, List.not_mem_nil, or_false] at hw
          simp only [get?_set, List.length_set]
          rw [if_neg (fun hc => hw hc.1.symm), if_neg (fun hc => hw hc.1.symm),
            if_neg (fun hc => hw hc.1.symm)]
    | cons w2 ws =>
        obtain ⟨hstep, hchain2⟩ := hchain
        have hv0lt : v0 < tvs.length := get?_some_lt _ _ _ hstep
        have hget : tvs.get ⟨v0, hv0lt⟩ = .tvar w2 := get_of_get? _ _ _ hv0lt hstep
        obtain ⟨f2, rfl⟩ : ∃ f2, f1 = f2 + 1 := ⟨f1 - 1, by omega⟩
        have hw2v0 : w2 ≠ v0 := fun hc => hv0rest (by rw [← hc]; exact List.mem_cons_self _ _)
        obtain ⟨tvs2, heq, hlen, hany, hunch⟩ :=
          flatten_alias_cycle_aux v0 ws f2 w2 [] tvs
            (by simp at hfuel ⊢; omega)
            (by simp)
            hchain2
            hw2v0
            (by simp)
            (by simp)
            (fun hc => (List.nodup_cons.mp hnodup).1 hc)
            (fun hc => hv0rest (List.mem_cons_of_mem _ hc))
            (List.nodup_cons.mp hnodup).2
            (by simp)
            (by simp)
            hv0lt
        refine ⟨tvs2.set v0 hol_type.any, ?_, ?_, ?_, ?_⟩
        · simp only [flatten_type_variable_var, List.reverse_nil, scan_visited,
            dif_pos hv0lt, hget, flatten_type_variable, List.nil_append, heq]
        · simp [hlen]
        · intro w hw
          simp only [get?_set, hlen]
          by_cases hwv : v0 = w
          · rw [if_pos ⟨hwv, hv0lt⟩]
          · rw [if_neg (fun hc => hwv hc.1)]
            apply hany
            rcases List.mem_cons.mp hw with rfl | hw2
            · exact absurd rfl hwv
            · rcases List.mem_cons.mp hw2 with rfl | hw3
              · exact Or.inr (Or.inr (Or.inl rfl))
              · exact Or.inr (Or.inr (Or.inr hw3))
        · intro w hw
          have h1 : w ≠ v0 := fun hc => hw (by rw [hc]; exact List.mem_cons_self _ _)
          simp only [get?_set, hlen]
          rw [if_neg (fun hc => h1 hc.1.symm)]
          apply hunch
          rintro (rfl | ⟨p, hp, rfl⟩ | rfl | hws)
          · exact h1 rfl
          · exact absurd hp (by simp)
          · exact hw (List.mem_cons_of_mem _ (List.mem_cons_self _ _))
          · exact hw (List.mem_cons_of_mem _ (List.mem_cons_of_mem _ hws))
  · intro v0 rest tvs rT fuel hfuel hchain hv0rest hnodup
    obtain ⟨f1, rfl⟩ : ∃ f1, fuel = f1 + 1 := ⟨fuel - 1, by omega⟩
    cases rest with
    | nil =>
        have hv0lt : v0 < tvs.length := get?_some_lt _ _ _ hchain
        have hget : tvs.get ⟨v0, hv0lt⟩ = .function (.tvar v0) rT :=
          get_of_get? _ _ _ hv0lt hchain
        obtain ⟨f2, rfl⟩ : ∃ f2, f1 = f2 + 1 := ⟨f1 - 1, by omega⟩
        obtain ⟨f3, rfl⟩ : ∃ f3, f2 = f3 + 1 := ⟨f2 - 1, by omega⟩
        obtain ⟨f4, rfl⟩ : ∃ f4, f3 = f4 + 1 := ⟨f3 - 1, by omega⟩
        have hs0 : scan_visited v0 (([] : List (Nat × Bool)).reverse) true [] = none := rfl
        have hs2 : scan_visited v0 (([] ++ [(v0, true)] :
            List (Nat × Bool)).reverse) false [] = some (false, [v0]) := by
          simp [scan_visited]
        simp only [flatten_type_variable_var, hs0, dif_pos hv0lt, hget,
          flatten_type_variable, hs2]
    | cons w2 ws =>
        obtain ⟨hstep, hchain2⟩ := hchain
        have hv0lt : v0 < tvs.length := get?_some_lt _ _ _ hstep
        have hget : tvs.get ⟨v0, hv0lt⟩ = .tvar w2 := get_of_get? _ _ _ hv0lt hstep
        obtain ⟨f2, rfl⟩ : ∃ f2, f1 = f2 + 1 := ⟨f1 - 1, by omega⟩
        have hw2v0 : w2 ≠ v0 := fun hc => hv0rest (by rw [← hc]; exact List.mem_cons_self _ _)
        have heq := flatten_func_cycle_aux v0 rT ws f2 w2 [] tvs
          (by simp at hfuel ⊢; omega)
          hchain2
          hw2v0
          (by simp)
          (by simp)
          (fun hc => (List.nodup_cons.mp hnodup).1 hc)
          (fun hc => hv0rest (List.mem_cons_of_mem _ hc))
          (List.nodup_cons.mp hnodup).2
          (by simp)
        simp only [flatten_type_variable_var, List.reverse_nil, scan_visited,
          dif_pos hv0lt, hget, flatten_type_variable, List.nil_append, heq]

/-- Witness for C8 at concrete cycles: the alias 3-cycle `t0 → t1 → t2 → t0`
    collapses to `ANY` everywhere, and the 2-cycle whose second step is
    `t1 := t0 → bool` fails. -/
theorem C8_cycle_witness :
    (∃ tvs2, flatten_type_variable_var 20 true 0 []
        [hol_type.tvar 1, .tvar 2, .tvar 0] = some (.any, tvs2) ∧
      tvs2.length = 3 ∧
      (∀ w, w ∈ (0 : Nat) :: [1, 2] → tvs2.get? w = some .any) ∧
      (∀ w, w ∉ (0 : Nat) :: [1, 2] →
        tvs2.get? w = ([hol_type.tvar 1, .tvar 2, .tvar 0] : List hol_type).get? w)) ∧
    flatten_type_variable_var 20 true 0 []
      [.tvar 1, .function (.tvar 0) (.constant .boolean)] = none :=
  ⟨C8_flatten_cycle_behavior.1 0 [1, 2] [hol_type.tvar 1, .tvar 2, .tvar 0] 20
      (by simp) ⟨rfl, rfl, rfl⟩ (by decide) (by decide),
   C8_flatten_cycle_behavior.2 0 [1]
      [hol_type.tvar 1, .function (.tvar 0) (.constant .boolean)]
      (.constant .boolean) 20 (by simp) ⟨rfl, rfl⟩ (by decide) (by decide)⟩

end PWL
